import Mathlib

/-!
# tapkee command line driver (`src/main.cpp`)

A shallow embedding of the driver program: the three method selectors
(`parse_reduction_method`, `parse_neighbors_method`, `parse_eigen_method`),
the callback matrix materializer (`matrix_from_callback`), the text loader
(`read_data`) and `main`, followed by the properties proved about them.

Conventions of the embedding

* a `const char*` argument is a `String`; `strcmp` is written out on the
  character lists;
* `exit` never returns: a function that may call it yields a `Run`, whose
  `exit` constructor carries what was printed before and the exit status;
* a `DenseMatrix` holds its two dimensions and its coefficients; a
  coefficient that was never assigned is `none`;
* `DefaultScalarType` values read from the data file are an arbitrary type
  `α`, the library's formatted extraction of one such value from a string
  stream being a parameter; the scalar literals of `main` are the rational
  numbers they denote;
* `static_cast<unsigned int>` is reduction modulo `2 ^ 32`; the `int` loop
  counters are natural numbers, which covers the runs in which no counter
  passes `INT_MAX`;
* a loop that the source does not bound is run with fuel, and yields `none`
  when the fuel does not suffice.
-/

namespace Tapkee

/-! ## Process outcomes -/

/-- Status passed to `exit` on failure (`EXIT_FAILURE` of `<cstdlib>`). -/
def EXIT_FAILURE : Nat := 1

/-- Status of a successful run (`return 0` from `main`). -/
def EXIT_SUCCESS : Nat := 0

/-- Outcome of a function that may call `exit`: either it returns a value, or
the process ends with the text printed so far by the function and a status. -/
inductive Run (β : Type) where
  | ret (value : β)
  | exit (printed : String) (status : Nat)
  deriving DecidableEq, Repr

/-! ## Method selectors (lines 52-112) -/

/-- The C library `strcmp` on the characters of two C strings (which hold no
zero character before their end): zero when the strings agree, negative when
the first is a proper initial part of the second, positive the other way
round, otherwise the difference of the first characters that differ. -/
def strcmp : List Char → List Char → Int
  | [], [] => 0
  | [], _ :: _ => -1
  | _ :: _, [] => 1
  | a :: as, b :: bs => if a = b then strcmp as bs else (a.toNat : Int) - (b.toNat : Int)

/-- Modelled from the spec: the enumeration `TAPKEE_METHOD` is declared in a
header that is not part of the sources at hand; its variants are the 14
reduction methods of the specification, under the names `main.cpp` uses. -/
inductive TAPKEE_METHOD where
  | KERNEL_LOCALLY_LINEAR_EMBEDDING
  | KERNEL_LOCAL_TANGENT_SPACE_ALIGNMENT
  | DIFFUSION_MAP
  | MULTIDIMENSIONAL_SCALING
  | LANDMARK_MULTIDIMENSIONAL_SCALING
  | ISOMAP
  | LANDMARK_ISOMAP
  | NEIGHBORHOOD_PRESERVING_EMBEDDING
  | LINEAR_LOCAL_TANGENT_SPACE_ALIGNMENT
  | LAPLACIAN_EIGENMAPS
  | LOCALITY_PRESERVING_PROJECTIONS
  | PCA
  | KERNEL_PCA
  | STOCHASTIC_PROXIMITY_EMBEDDING
  deriving DecidableEq, Repr

/-- Modelled from the spec: the enumeration `TAPKEE_NEIGHBORS_METHOD` (header
not at hand) has the 2 neighbour search variants of the specification. -/
inductive TAPKEE_NEIGHBORS_METHOD where
  | BRUTE_FORCE
  | COVER_TREE
  deriving DecidableEq, Repr

/-- Modelled from the spec: the enumeration `TAPKEE_EIGEN_EMBEDDING_METHOD`
(header not at hand) has the 3 eigen solver variants of the specification. -/
inductive TAPKEE_EIGEN_EMBEDDING_METHOD where
  | ARPACK
  | RANDOMIZED
  | EIGEN_DENSE_SELFADJOINT_SOLVER
  deriving DecidableEq, Repr

/-- The text `printf("Method %s is not supported (yet?)\n",str)` prints. -/
def not_supported_message (str : String) : String :=
  "Method " ++ str ++ " is not supported (yet?)\n"

/-- Lines 52-86. The `return` written after `exit(EXIT_FAILURE)` is never
reached, `exit` ending the process. -/
def parse_reduction_method (str : String) : Run TAPKEE_METHOD :=
  if strcmp str.toList "kltsa".toList = 0 then
    .ret .KERNEL_LOCAL_TANGENT_SPACE_ALIGNMENT
  else if strcmp str.toList "klle".toList = 0 then
    .ret .KERNEL_LOCALLY_LINEAR_EMBEDDING
  else if strcmp str.toList "mds".toList = 0 then
    .ret .MULTIDIMENSIONAL_SCALING
  else if strcmp str.toList "lmds".toList = 0 then
    .ret .LANDMARK_MULTIDIMENSIONAL_SCALING
  else if strcmp str.toList "isomap".toList = 0 then
    .ret .ISOMAP
  else if strcmp str.toList "diffusion_map".toList = 0 then
    .ret .DIFFUSION_MAP
  else if strcmp str.toList "kpca".toList = 0 then
    .ret .KERNEL_PCA
  else if strcmp str.toList "pca".toList = 0 then
    .ret .PCA
  else if strcmp str.toList "laplacian_eigenmaps".toList = 0 then
    .ret .LAPLACIAN_EIGENMAPS
  else if strcmp str.toList "lpp".toList = 0 then
    .ret .LOCALITY_PRESERVING_PROJECTIONS
  else if strcmp str.toList "npe".toList = 0 then
    .ret .NEIGHBORHOOD_PRESERVING_EMBEDDING
  else if strcmp str.toList "lltsa".toList = 0 then
    .ret .LINEAR_LOCAL_TANGENT_SPACE_ALIGNMENT
  else if strcmp str.toList "spe".toList = 0 then
    .ret .STOCHASTIC_PROXIMITY_EMBEDDING
  else if strcmp str.toList "lisomap".toList = 0 then
    .ret .LANDMARK_ISOMAP
  else
    .exit (not_supported_message str) EXIT_FAILURE

/-- Lines 88-98. -/
def parse_neighbors_method (str : String) : Run TAPKEE_NEIGHBORS_METHOD :=
  if strcmp str.toList "brute".toList = 0 then
    .ret .BRUTE_FORCE
  else if strcmp str.toList "covertree".toList = 0 then
    .ret .COVER_TREE
  else
    .exit (not_supported_message str) EXIT_FAILURE

/-- Lines 100-112. -/
def parse_eigen_method (str : String) : Run TAPKEE_EIGEN_EMBEDDING_METHOD :=
  if strcmp str.toList "arpack".toList = 0 then
    .ret .ARPACK
  else if strcmp str.toList "randomized".toList = 0 then
    .ret .RANDOMIZED
  else if strcmp str.toList "dense".toList = 0 then
    .ret .EIGEN_DENSE_SELFADJOINT_SOLVER
  else
    .exit (not_supported_message str) EXIT_FAILURE

/-- The tokens `parse_reduction_method` compares against, in source order. -/
def reduction_tokens : List String :=
  ["kltsa", "klle", "mds", "lmds", "isomap", "diffusion_map", "kpca", "pca",
   "laplacian_eigenmaps", "lpp", "npe", "lltsa", "spe", "lisomap"]

/-- The tokens `parse_neighbors_method` compares against. -/
def neighbors_tokens : List String := ["brute", "covertree"]

/-- The tokens `parse_eigen_method` compares against. -/
def eigen_tokens : List String := ["arpack", "randomized", "dense"]

/-! ## Dense matrices -/

/-- Modelled from the spec: `DenseMatrix` is declared in a header that is not
part of the sources at hand; as used by `main.cpp` it is a dense table of
scalars with `rows()`, `cols()` and coefficient access `m(i,j)`. A coefficient
that has not been assigned since construction holds no value (`none`). -/
structure DenseMatrix (α : Type) where
  rows : Nat
  cols : Nat
  coeff : Nat → Nat → Option α

/-- The constructor call `DenseMatrix m(r,c)`: an `r` by `c` matrix none of
whose coefficients has been assigned. -/
def DenseMatrix.sized {α : Type} (r c : Nat) : DenseMatrix α :=
  { rows := r, cols := c, coeff := fun _ _ => none }

/-- The assignment `m(i,j) = v`. -/
def DenseMatrix.assign {α : Type} (m : DenseMatrix α) (i j : Nat) (v : α) : DenseMatrix α :=
  { m with coeff := fun a b => if a = i ∧ b = j then some v else m.coeff a b }

/-! ## Callback matrix materializer (lines 114-126) -/

/-- State of `matrix_from_callback`: the matrix being filled and, as a record
of the work done, the argument pairs the callback has been evaluated at, in
order of evaluation. -/
structure Materialized (ι α : Type) where
  result : DenseMatrix α
  evaluations : List (ι × ι)

/-- The inner loop (lines 120-123) for the row at offset `i`, whose index is
`a = *i_iter`. The iterator `j_iter` is given by the elements from it up to
`end` together with its offset `j = j_iter-begin`; the loop stops when nothing
is left (`j_iter == end`). -/
def matrix_from_callback_inner {ι α : Type} (callback : ι → ι → α) (i : Nat) (a : ι) :
    List ι → Nat → Materialized ι α → Materialized ι α
  | [], _, st => st
  | b :: j_rest, j, st =>
    matrix_from_callback_inner callback i a j_rest (j + 1)
      { result := st.result.assign i j (callback a b)
        evaluations := st.evaluations ++ [(a, b)] }

/-- The outer loop (lines 118-124) over `i_iter`, given like `j_iter` above;
`all` is the whole sequence from `begin` to `end`, at which every inner loop
starts again. -/
def matrix_from_callback_outer {ι α : Type} (callback : ι → ι → α) (all : List ι) :
    List ι → Nat → Materialized ι α → Materialized ι α
  | [], _, st => st
  | a :: i_rest, i, st =>
    matrix_from_callback_outer callback all i_rest (i + 1)
      (matrix_from_callback_inner callback i a all 0 st)

/-- Lines 114-126: the sequence from `begin` to `end` is the list `indices`,
so that `end-begin` is its length. -/
def matrix_from_callback {ι α : Type} (indices : List ι) (callback : ι → ι → α) :
    Materialized ι α :=
  matrix_from_callback_outer callback indices indices 0
    { result := DenseMatrix.sized indices.length indices.length, evaluations := [] }

/-! ## Text loader (lines 26-50) -/

/-- An input file stream: the characters not yet read and two of its state
flags. -/
structure IStream where
  chars : List Char
  eofbit : Bool
  failbit : Bool
  deriving DecidableEq, Repr

/-- The call `ifstream ifs(filename.c_str())` on a file system `files` (a file
name has contents or does not exist): a file that cannot be opened leaves the
stream in the failed state. -/
def ifstream_open (files : String → Option String) (filename : String) : IStream :=
  match files filename with
  | some contents => { chars := contents.toList, eofbit := false, failbit := false }
  | none => { chars := [], eofbit := false, failbit := true }

/-- What one `getline` extracts from the characters at hand: the characters
before the first newline, the characters after that newline, and whether the
end of the input was reached instead of a newline. -/
def getline_chars : List Char → List Char × List Char × Bool
  | [] => ([], [], true)
  | c :: cs =>
    if c = '\n' then ([], cs, false)
    else
      let r := getline_chars cs
      (c :: r.1, r.2.1, r.2.2)

/-- The library call `getline(ifs,str)`: on a stream that is not good nothing
is extracted and `str` keeps its value; otherwise `str` receives the next
line, the newline being consumed and not stored; `eofbit` is set when the end
of the input is reached, `failbit` when nothing at all could be extracted. -/
def getline (ifs : IStream) (str : List Char) : IStream × List Char :=
  if ifs.eofbit || ifs.failbit then
    ({ ifs with failbit := true }, str)
  else
    let r := getline_chars ifs.chars
    ({ chars := r.2.1, eofbit := r.2.2, failbit := ifs.chars.isEmpty }, r.1)

/-- Lines 36-39: the vector `row` built from the `istream_iterator` over the
string stream `strstr` of a line. `extract` stands for the library's
`strstr >> value` on the characters not yet read: it fails, or gives the
value and the characters left unread. The values are pushed onto `row` until
an extraction fails; `none` when that has not happened within `fuel`
extractions. -/
def read_data_row {α : Type} (extract : List Char → Option (α × List Char)) :
    Nat → List Char → List α → Option (List α)
  | 0, _, _ => none
  | fuel + 1, strstr, row =>
    match extract strstr with
    | none => some row
    | some (value, unread) => read_data_row extract fuel unread (row ++ [value])

/-- The loop of lines 31-42, run for at most `fuel` iterations, each row
being given at most `n` extractions (`none` when a loop has not ended by
then). -/
def read_data_lines {α : Type} (extract : List Char → Option (α × List Char)) (n : Nat) :
    Nat → IStream → List Char → List (List α) → Option (List (List α))
  | 0, _, _, _ => none
  | fuel + 1, ifs, str, input_data =>
    if ifs.eofbit then some input_data
    else
      let r := getline ifs str
      if r.2.length ≠ 0 then
        match read_data_row extract n r.2 [] with
        | none => none
        | some row => read_data_lines extract n fuel r.1 r.2 (input_data ++ [row])
      else
        read_data_lines extract n fuel r.1 r.2 input_data

/-- A run that leaves the defined behaviour of the language. -/
inductive Fault where
  /-- `operator[]` of a `vector` at a position at or past its `size()` -/
  | out_of_range
  deriving DecidableEq, Repr

/-- The inner loop of lines 46-47 for the matrix row `i`: `k` iterations are
left, the next one is for column `j`. -/
def read_data_fill_row {α : Type} (input_data : List (List α)) (i : Nat) :
    Nat → Nat → DenseMatrix α → Except Fault (DenseMatrix α)
  | 0, _, fm => .ok fm
  | k + 1, j, fm =>
    match input_data[j]? with
    | none => .error .out_of_range
    | some row =>
      match row[i]? with
      | none => .error .out_of_range
      | some v => read_data_fill_row input_data i k (j + 1) (fm.assign i j v)

/-- The outer loop of lines 44-48: `k` iterations are left, the next one is
for row `i`. -/
def read_data_fill {α : Type} (input_data : List (List α)) :
    Nat → Nat → DenseMatrix α → Except Fault (DenseMatrix α)
  | 0, _, fm => .ok fm
  | k + 1, i, fm =>
    match read_data_fill_row input_data i fm.cols 0 fm with
    | .error e => .error e
    | .ok fm1 => read_data_fill input_data k (i + 1) fm1

/-- Lines 43-49 on the rows read: the matrix is sized by the length of the
first row and the number of rows, then filled transposed. -/
def read_data_matrix {α : Type} (input_data : List (List α)) : Except Fault (DenseMatrix α) :=
  match input_data[0]? with
  | none => .error .out_of_range
  | some row0 =>
    let fm : DenseMatrix α := DenseMatrix.sized row0.length input_data.length
    read_data_fill input_data fm.rows 0 fm

/-- Lines 26-50. The result is `none` when a reading loop has not ended
within `fuel` iterations, otherwise the matrix returned or the fault met. -/
def read_data {α : Type} (extract : List Char → Option (α × List Char))
    (files : String → Option String) (fuel : Nat) (filename : String) :
    Option (Except Fault (DenseMatrix α)) :=
  match read_data_lines extract fuel fuel (ifstream_open files filename) [] [] with
  | none => none
  | some input_data => some (read_data_matrix input_data)

/-! ## The program (lines 128-192) -/

/-- Modelled from the spec: the enumeration of parameter keys is declared in
a header that is not part of the sources at hand; listed are the keys
`main.cpp` assigns. -/
inductive TAPKEE_PARAMETERS where
  | REDUCTION_METHOD
  | NEIGHBORS_METHOD
  | EIGEN_EMBEDDING_METHOD
  | NUMBER_OF_NEIGHBORS
  | TARGET_DIMENSION
  | DIFFUSION_MAP_TIMESTEPS
  | GAUSSIAN_KERNEL_WIDTH
  | SPE_GLOBAL_STRATEGY
  | SPE_TOLERANCE
  | SPE_NUM_UPDATES
  | LANDMARK_RATIO
  | EIGENSHIFT
  | CURRENT_DIMENSION
  deriving DecidableEq, Repr

/-- A value stored under a parameter key, tagged with its C++ type. A
`DefaultScalarType` value is given by the rational number its literal
denotes. -/
inductive ParamValue where
  | method (m : TAPKEE_METHOD)
  | neighbors_method (m : TAPKEE_NEIGHBORS_METHOD)
  | eigen_method (m : TAPKEE_EIGEN_EMBEDDING_METHOD)
  | unsigned_int (n : Nat)
  | scalar (x : ℚ)
  | bool (b : Bool)
  deriving DecidableEq

/-- Modelled from the spec: `ParametersMap` (header not at hand) is a mapping
from parameter keys to values; a key that was never assigned has none. -/
def ParametersMap : Type := TAPKEE_PARAMETERS → Option ParamValue

/-- The map `ParametersMap parameters;` starts with: no key assigned. -/
def ParametersMap.empty : ParametersMap := fun _ => none

/-- The assignment `parameters[key] = value`. -/
def ParametersMap.set (parameters : ParametersMap) (key : TAPKEE_PARAMETERS)
    (value : ParamValue) : ParametersMap :=
  fun k => if k = key then some value else parameters k

/-- The C library `isspace` in the C locale. -/
def isspace (c : Char) : Bool :=
  c = ' ' || c = '\t' || c = '\n' || c = Char.ofNat 11 || c = Char.ofNat 12 || c = '\r'

/-- The C library `isdigit`. -/
def isdigit (c : Char) : Bool :=
  decide (48 ≤ c.toNat) && decide (c.toNat ≤ 57)

/-- The digits at the start of the characters, read as a decimal number on
top of the value `acc` read so far. -/
def atoi_digits : List Char → Int → Int
  | [], acc => acc
  | c :: cs, acc =>
    if isdigit c then atoi_digits cs (acc * 10 + ((c.toNat : Int) - 48)) else acc

/-- The C library `atoi`: white space is skipped, then an optional sign and
the decimal digits that follow are converted; text without digits there gives
0. (The library leaves a value outside the range of `int` undefined; here it
is the number written.) -/
def atoi (str : String) : Int :=
  match str.toList.dropWhile isspace with
  | [] => 0
  | c :: cs =>
    if c = '-' then - atoi_digits cs 0
    else if c = '+' then atoi_digits cs 0
    else atoi_digits (c :: cs) 0

/-- The conversion `static_cast<unsigned int>` of an integer: the value
modulo `2 ^ 32`. -/
def static_cast_unsigned_int (z : Int) : Nat :=
  (z % 4294967296).toNat

/-- What a run of the program does that can be seen from outside, together
with the calls the properties below speak about. -/
inductive Event (α : Type) where
  | printf (text : String)
  | parse_reduction_method (str : String)
  | parse_neighbors_method (str : String)
  | parse_eigen_method (str : String)
  | read_data (filename : String)
  | info (message : String)
  | embed (indices : List Nat) (kcb dcb : Nat → Nat → α) (parameters : ParametersMap)
  | ofstream_open (filename : String)
  | ofstream_write (embedding : DenseMatrix α)
  | ofstream_close

/-- The event is a call of one of the three selectors. -/
def Event.is_parse {α : Type} : Event α → Bool
  | .parse_reduction_method _ => true
  | .parse_neighbors_method _ => true
  | .parse_eigen_method _ => true
  | _ => false

/-- The event is a call of `read_data`. -/
def Event.is_read_data {α : Type} : Event α → Bool
  | .read_data _ => true
  | _ => false

/-- The event is a call of `embed`. -/
def Event.is_embed {α : Type} : Event α → Bool
  | .embed _ _ _ _ => true
  | _ => false

/-- The event opens, writes or closes an output file. -/
def Event.is_output {α : Type} : Event α → Bool
  | .ofstream_open _ => true
  | .ofstream_write _ => true
  | .ofstream_close => true
  | _ => false

/-- How a run ends. -/
inductive Status where
  /-- `exit(status)`, or `return status` from `main` -/
  | exited (status : Nat)
  /-- a `Fault` was met -/
  | undefined_behaviour
  /-- `embed` did not return a matrix -/
  | embed_failed
  deriving DecidableEq, Repr

/-- A finished run: its events in order and how it ended. -/
structure Outcome (α : Type) where
  trace : List (Event α)
  status : Status

/-- What `main` is compiled and run with, the code of which is not part of
`main.cpp`: the file system, the library extraction of a scalar from a string
stream, whether `USE_PRECOMPUTED` is defined, the callback classes (each
given by the function of the data matrix it wraps; a feature vector is the
list of its coefficients) and `embed`, which returns a matrix or fails. -/
structure Env (α : Type) where
  files : String → Option String
  extract : List Char → Option (α × List Char)
  USE_PRECOMPUTED : Bool
  distance_callback : DenseMatrix α → Nat → Nat → α
  kernel_callback : DenseMatrix α → Nat → Nat → α
  feature_vector_callback : DenseMatrix α → Nat → List α
  precomputed_distance_callback : DenseMatrix α → Nat → Nat → α
  precomputed_kernel_callback : DenseMatrix α → Nat → Nat → α
  embed : List Nat → (Nat → Nat → α) → (Nat → Nat → α) → (Nat → List α) →
    ParametersMap → Option (DenseMatrix α)

/-- The two lines `printf` prints on a wrong number of arguments. -/
def usage_events {α : Type} : List (Event α) :=
  [.printf "No parameters specified.\n",
   .printf "Usage is [method] [neighbor_method] [eigen_method]  [number of neighbors] [target dimension]\n"]

/-- Lines 140-152: the assignments to `parameters` once the three selectors
have returned. -/
def main_parameters (m : TAPKEE_METHOD) (n : TAPKEE_NEIGHBORS_METHOD)
    (e : TAPKEE_EIGEN_EMBEDDING_METHOD) (argv4 argv5 : String) : ParametersMap :=
  ((((((((((((ParametersMap.empty
    ).set .REDUCTION_METHOD (.method m)
    ).set .NEIGHBORS_METHOD (.neighbors_method n)
    ).set .EIGEN_EMBEDDING_METHOD (.eigen_method e)
    ).set .NUMBER_OF_NEIGHBORS (.unsigned_int (static_cast_unsigned_int (atoi argv4)))
    ).set .TARGET_DIMENSION (.unsigned_int (static_cast_unsigned_int (atoi argv5)))
    ).set .DIFFUSION_MAP_TIMESTEPS (.unsigned_int (static_cast_unsigned_int 3))
    ).set .GAUSSIAN_KERNEL_WIDTH (.scalar 1000)
    ).set .SPE_GLOBAL_STRATEGY (.bool true)
    ).set .SPE_TOLERANCE (.scalar (1 / 100000))
    ).set .SPE_NUM_UPDATES (.unsigned_int (static_cast_unsigned_int 100))
    ).set TAPKEE_PARAMETERS.LANDMARK_RATIO (.scalar (2 / 10))
    ).set .EIGENSHIFT (.scalar (1 / 1000000000))

/-- The loop of lines 165-166: `k` iterations are left, the next one pushes
`i` onto `data_indices`. -/
def data_indices_loop : Nat → Nat → List Nat → List Nat
  | 0, _, data_indices => data_indices
  | k + 1, i, data_indices => data_indices_loop k (i + 1) (data_indices ++ [i])

/-- Lines 164-166. -/
def main_data_indices {α : Type} (input_data : DenseMatrix α) : List Nat :=
  data_indices_loop input_data.cols 0 []

/-- The text of lines 160-161. -/
def main_info_message {α : Type} (input_data : DenseMatrix α) : String :=
  "Data contains " ++ toString input_data.cols ++
    " feature vectors with dimension of " ++ toString input_data.rows

/-- Lines 171-172 (with `USE_PRECOMPUTED`). -/
def main_distance_matrix {α : Type} (env : Env α) (input_data : DenseMatrix α) : DenseMatrix α :=
  (matrix_from_callback (main_data_indices input_data) (env.distance_callback input_data)).result

/-- Lines 174-175 (with `USE_PRECOMPUTED`). -/
def main_kernel_matrix {α : Type} (env : Env α) (input_data : DenseMatrix α) : DenseMatrix α :=
  (matrix_from_callback (main_data_indices input_data) (env.kernel_callback input_data)).result

/-- The distance callback `dcb` handed to `embed` (lines 173 and 181). -/
def main_dcb {α : Type} (env : Env α) (input_data : DenseMatrix α) : Nat → Nat → α :=
  if env.USE_PRECOMPUTED then
    env.precomputed_distance_callback (main_distance_matrix env input_data)
  else env.distance_callback input_data

/-- The kernel callback `kcb` handed to `embed` (lines 176 and 182). -/
def main_kcb {α : Type} (env : Env α) (input_data : DenseMatrix α) : Nat → Nat → α :=
  if env.USE_PRECOMPUTED then
    env.precomputed_kernel_callback (main_kernel_matrix env input_data)
  else env.kernel_callback input_data

/-- Lines 156-191: the run from the call of `read_data` on, with the events
`before` it and the parameters assigned so far. -/
def main_run {α : Type} (env : Env α) (fuel : Nat) (before : List (Event α))
    (parameters : ParametersMap) : Option (Outcome α) :=
  match read_data env.extract env.files fuel "input.dat" with
  | none => none
  | some (.error _) =>
    some { trace := before ++ [.read_data "input.dat"], status := .undefined_behaviour }
  | some (.ok input_data) =>
    let parameters1 := parameters.set .CURRENT_DIMENSION
      (.unsigned_int (static_cast_unsigned_int input_data.rows))
    let data_indices := main_data_indices input_data
    let upto : List (Event α) := before ++
      [.read_data "input.dat", .info (main_info_message input_data),
       .embed data_indices (main_kcb env input_data) (main_dcb env input_data) parameters1]
    match env.embed data_indices (main_kcb env input_data) (main_dcb env input_data)
        (env.feature_vector_callback input_data) parameters1 with
    | none => some { trace := upto, status := .embed_failed }
    | some embedding =>
      some { trace := upto ++
               [.ofstream_open "output.dat", .ofstream_write embedding, .ofstream_close]
             status := .exited EXIT_SUCCESS }

/-- Lines 128-192. `argc` is the length of `argv`, whose entry 0 is the
program name. The result is `none` when the run has not ended because the
loop of `read_data` has not ended within `fuel` iterations. -/
def main {α : Type} (env : Env α) (fuel : Nat) (argv : List String) : Option (Outcome α) :=
  if argv.length ≠ 6 then
    some { trace := usage_events, status := .exited EXIT_FAILURE }
  else
    match parse_reduction_method (argv.getD 1 "") with
    | .exit printed status =>
      some { trace := [.parse_reduction_method (argv.getD 1 ""), .printf printed]
             status := .exited status }
    | .ret m =>
      match parse_neighbors_method (argv.getD 2 "") with
      | .exit printed status =>
        some { trace := [.parse_reduction_method (argv.getD 1 ""),
                         .parse_neighbors_method (argv.getD 2 ""), .printf printed]
               status := .exited status }
      | .ret n =>
        match parse_eigen_method (argv.getD 3 "") with
        | .exit printed status =>
          some { trace := [.parse_reduction_method (argv.getD 1 ""),
                           .parse_neighbors_method (argv.getD 2 ""),
                           .parse_eigen_method (argv.getD 3 ""), .printf printed]
                 status := .exited status }
        | .ret e =>
          main_run env fuel
            [.parse_reduction_method (argv.getD 1 ""), .parse_neighbors_method (argv.getD 2 ""),
             .parse_eigen_method (argv.getD 3 "")]
            (main_parameters m n e (argv.getD 4 "") (argv.getD 5 ""))

/-! ## Sample collaborators, for evaluating the program on concrete runs -/

/-- The value of a sequence of decimal digits, on top of `acc`. -/
def sample_value : List Char → Nat → Nat
  | [], acc => acc
  | c :: cs, acc => sample_value cs (acc * 10 + (c.toNat - 48))

/-- A sample extraction, for unsigned decimal numerals: white space is
skipped, then the digits that follow are converted; it fails when no digit
is there. -/
def sample_extract (strstr : List Char) : Option (Nat × List Char) :=
  if (strstr.dropWhile isspace).takeWhile isdigit = [] then none
  else
    some (sample_value ((strstr.dropWhile isspace).takeWhile isdigit) 0,
      (strstr.dropWhile isspace).dropWhile isdigit)

/-- A sample environment: `input.dat` holds `contents` when given, the
callbacks read the data matrix (distance: absolute difference of the
first coefficients, kernel: their product), `embed` returns an empty matrix. -/
def sample_env (contents : Option String) (precomputed : Bool) : Env Nat where
  files := fun name => if name = "input.dat" then contents else none
  extract := sample_extract
  USE_PRECOMPUTED := precomputed
  distance_callback := fun m a b =>
    (((m.coeff 0 a).getD 0) - ((m.coeff 0 b).getD 0)) +
      (((m.coeff 0 b).getD 0) - ((m.coeff 0 a).getD 0))
  kernel_callback := fun m a b => ((m.coeff 0 a).getD 0) * ((m.coeff 0 b).getD 0)
  feature_vector_callback := fun m a => (List.range m.rows).map (fun i => (m.coeff i a).getD 0)
  precomputed_distance_callback := fun m a b => (m.coeff a b).getD 0
  precomputed_kernel_callback := fun m a b => (m.coeff a b).getD 0
  embed := fun _ _ _ _ _ => some (DenseMatrix.sized 0 0)

/-! ## Definitions used to state the properties -/

/-- The lines of a text as the specification has them: the pieces of the text
between its newline characters. -/
def text_lines (text : String) : List (List Char) :=
  text.toList.splitOnP (fun c => c == '\n')

/-- The non-empty lines of a text, in order. -/
def nonempty_lines (text : String) : List (List Char) :=
  (text_lines text).filter (fun line => line.length ≠ 0)

/-- The white space separated items of a line, in order: the non-empty pieces
of the line between its white space characters. -/
def line_items (line : List Char) : List (List Char) :=
  (line.splitOnP isspace).filter (fun item => item.length ≠ 0)

/-- A sequence of characters is an unsigned decimal numeral. -/
def sample_numeral (item : List Char) : Prop :=
  item ≠ [] ∧ ∀ c ∈ item, isdigit c = true

/-- The value at place `i` of row `j` of the rows read, when there is one. -/
def row_entry {α : Type} (input_data : List (List α)) (i j : Nat) : Option α :=
  match input_data[j]? with
  | none => none
  | some row => row[i]?

/-- The arguments of a call of `embed`. -/
structure EmbedCall (α : Type) where
  indices : List Nat
  kcb : Nat → Nat → α
  dcb : Nat → Nat → α
  parameters : ParametersMap

/-- The arguments, when the event is a call of `embed`. -/
def Event.embed_call {α : Type} : Event α → Option (EmbedCall α)
  | .embed indices kcb dcb parameters => some ⟨indices, kcb, dcb, parameters⟩
  | _ => none

/-- The calls of `embed` in a run, in order. -/
def Outcome.embed_calls {α : Type} (out : Outcome α) : List (EmbedCall α) :=
  out.trace.filterMap Event.embed_call

/-- The arguments `main` calls `embed` with once `input_data` is loaded
(lines 158-185). -/
def main_embed_call {α : Type} (env : Env α) (parameters : ParametersMap)
    (input_data : DenseMatrix α) : EmbedCall α :=
  { indices := main_data_indices input_data
    kcb := main_kcb env input_data
    dcb := main_dcb env input_data
    parameters := parameters.set .CURRENT_DIMENSION
      (.unsigned_int (static_cast_unsigned_int input_data.rows)) }

/-- The domains the specification gives for the parameters: neighbour count
and target dimension at least 1, kernel width positive, landmark ratio in
`(0,1]`, tolerance positive. -/
def in_domain (p : ParametersMap) : Prop :=
  (∃ n, p .NUMBER_OF_NEIGHBORS = some (.unsigned_int n) ∧ 1 ≤ n) ∧
  (∃ n, p .TARGET_DIMENSION = some (.unsigned_int n) ∧ 1 ≤ n) ∧
  (∃ x, p .GAUSSIAN_KERNEL_WIDTH = some (.scalar x) ∧ 0 < x) ∧
  (∃ x, p TAPKEE_PARAMETERS.LANDMARK_RATIO = some (.scalar x) ∧ 0 < x ∧ x ≤ 1) ∧
  (∃ x, p .SPE_TOLERANCE = some (.scalar x) ∧ 0 < x)

/-! # Properties -/

/-! ## Auxiliary facts -/

theorem strcmp_eq_zero_iff (a b : List Char) : strcmp a b = 0 ↔ a = b := by
  induction a generalizing b with
  | nil =>
    cases b with
    | nil => simp [strcmp]
    | cons b bs => simp [strcmp]
  | cons a as ih =>
    cases b with
    | nil => simp [strcmp]
    | cons b bs =>
      by_cases h : a = b
      · simp [strcmp, h, ih]
      · have hne : (a.toNat : Int) - (b.toNat : Int) ≠ 0 := by
          intro h0
          apply h
          have h1 : a.toNat = b.toNat := by omega
          rw [← Char.ofNat_toNat a, ← Char.ofNat_toNat b, h1]
        simp [strcmp, h, hne]

theorem strcmp_toList (s t : String) : strcmp s.toList t.toList = 0 ↔ s = t := by
  rw [strcmp_eq_zero_iff]
  constructor
  · intro h
    exact String.ext h
  · intro h
    rw [h]

theorem parse_reduction_method_eq (s : String) :
    parse_reduction_method s =
      if s = "kltsa" then .ret .KERNEL_LOCAL_TANGENT_SPACE_ALIGNMENT
      else if s = "klle" then .ret .KERNEL_LOCALLY_LINEAR_EMBEDDING
      else if s = "mds" then .ret .MULTIDIMENSIONAL_SCALING
      else if s = "lmds" then .ret .LANDMARK_MULTIDIMENSIONAL_SCALING
      else if s = "isomap" then .ret .ISOMAP
      else if s = "diffusion_map" then .ret .DIFFUSION_MAP
      else if s = "kpca" then .ret .KERNEL_PCA
      else if s = "pca" then .ret .PCA
      else if s = "laplacian_eigenmaps" then .ret .LAPLACIAN_EIGENMAPS
      else if s = "lpp" then .ret .LOCALITY_PRESERVING_PROJECTIONS
      else if s = "npe" then .ret .NEIGHBORHOOD_PRESERVING_EMBEDDING
      else if s = "lltsa" then .ret .LINEAR_LOCAL_TANGENT_SPACE_ALIGNMENT
      else if s = "spe" then .ret .STOCHASTIC_PROXIMITY_EMBEDDING
      else if s = "lisomap" then .ret .LANDMARK_ISOMAP
      else .exit (not_supported_message s) EXIT_FAILURE := by
  unfold parse_reduction_method
  simp only [strcmp_toList]

theorem parse_neighbors_method_eq (s : String) :
    parse_neighbors_method s =
      if s = "brute" then .ret .BRUTE_FORCE
      else if s = "covertree" then .ret .COVER_TREE
      else .exit (not_supported_message s) EXIT_FAILURE := by
  unfold parse_neighbors_method
  simp only [strcmp_toList]

theorem parse_eigen_method_eq (s : String) :
    parse_eigen_method s =
      if s = "arpack" then .ret .ARPACK
      else if s = "randomized" then .ret .RANDOMIZED
      else if s = "dense" then .ret .EIGEN_DENSE_SELFADJOINT_SOLVER
      else .exit (not_supported_message s) EXIT_FAILURE := by
  unfold parse_eigen_method
  simp only [strcmp_toList]

theorem parse_reduction_method_of_mem (s : String) (h : s ∈ reduction_tokens) :
    ∃ m, parse_reduction_method s = .ret m := by
  simp only [reduction_tokens, List.mem_cons, List.mem_singleton, List.not_mem_nil, or_false] at h
  rcases h with h | h | h | h | h | h | h | h | h | h | h | h | h | h <;> subst h <;>
    exact ⟨_, rfl⟩

theorem parse_reduction_method_of_not_mem (s : String) (h : s ∉ reduction_tokens) :
    parse_reduction_method s = .exit (not_supported_message s) EXIT_FAILURE := by
  simp only [reduction_tokens, List.mem_cons, List.mem_singleton, List.not_mem_nil, or_false,
    not_or] at h
  obtain ⟨h1, h2, h3, h4, h5, h6, h7, h8, h9, h10, h11, h12, h13, h14⟩ := h
  rw [parse_reduction_method_eq]
  simp only [h1, h2, h3, h4, h5, h6, h7, h8, h9, h10, h11, h12, h13, h14, if_false]

theorem parse_neighbors_method_of_mem (s : String) (h : s ∈ neighbors_tokens) :
    ∃ m, parse_neighbors_method s = .ret m := by
  simp only [neighbors_tokens, List.mem_cons, List.mem_singleton, List.not_mem_nil, or_false] at h
  rcases h with h | h <;> subst h <;> exact ⟨_, rfl⟩

theorem parse_neighbors_method_of_not_mem (s : String) (h : s ∉ neighbors_tokens) :
    parse_neighbors_method s = .exit (not_supported_message s) EXIT_FAILURE := by
  simp only [neighbors_tokens, List.mem_cons, List.mem_singleton, List.not_mem_nil, or_false,
    not_or] at h
  obtain ⟨h1, h2⟩ := h
  rw [parse_neighbors_method_eq]
  simp only [h1, h2, if_false]

theorem parse_eigen_method_of_mem (s : String) (h : s ∈ eigen_tokens) :
    ∃ m, parse_eigen_method s = .ret m := by
  simp only [eigen_tokens, List.mem_cons, List.mem_singleton, List.not_mem_nil, or_false] at h
  rcases h with h | h | h <;> subst h <;> exact ⟨_, rfl⟩

theorem parse_eigen_method_of_not_mem (s : String) (h : s ∉ eigen_tokens) :
    parse_eigen_method s = .exit (not_supported_message s) EXIT_FAILURE := by
  simp only [eigen_tokens, List.mem_cons, List.mem_singleton, List.not_mem_nil, or_false,
    not_or] at h
  obtain ⟨h1, h2, h3⟩ := h
  rw [parse_eigen_method_eq]
  simp only [h1, h2, h3, if_false]

section materializer
variable {ι α : Type}

theorem matrix_from_callback_inner_dims (callback : ι → ι → α) (i : Nat) (a : ι) (rest : List ι) :
    ∀ (j : Nat) (st : Materialized ι α),
      (matrix_from_callback_inner callback i a rest j st).result.rows = st.result.rows ∧
      (matrix_from_callback_inner callback i a rest j st).result.cols = st.result.cols := by
  induction rest with
  | nil => intro j st; exact ⟨rfl, rfl⟩
  | cons b r ih =>
    intro j st
    simp only [matrix_from_callback_inner]
    have h := ih (j + 1) { result := st.result.assign i j (callback a b),
                           evaluations := st.evaluations ++ [(a, b)] }
    exact h

theorem matrix_from_callback_inner_evaluations (callback : ι → ι → α) (i : Nat) (a : ι)
    (rest : List ι) :
    ∀ (j : Nat) (st : Materialized ι α),
      (matrix_from_callback_inner callback i a rest j st).evaluations =
        st.evaluations ++ rest.map (fun b => (a, b)) := by
  induction rest with
  | nil => intro j st; simp [matrix_from_callback_inner]
  | cons b r ih =>
    intro j st
    simp only [matrix_from_callback_inner]
    rw [ih]
    simp

theorem matrix_from_callback_inner_other (callback : ι → ι → α) (i : Nat) (a : ι)
    (rest : List ι) :
    ∀ (j : Nat) (st : Materialized ι α) (x y : Nat), (x ≠ i ∨ y < j) →
      (matrix_from_callback_inner callback i a rest j st).result.coeff x y =
        st.result.coeff x y := by
  induction rest with
  | nil => intro j st x y _; rfl
  | cons b r ih =>
    intro j st x y h
    simp only [matrix_from_callback_inner]
    rw [ih (j + 1) _ x y (by omega)]
    simp only [DenseMatrix.assign]
    have : ¬ (x = i ∧ y = j) := by omega
    simp [this]

theorem matrix_from_callback_inner_entry (callback : ι → ι → α) (i : Nat) (a : ι)
    (rest : List ι) :
    ∀ (j : Nat) (st : Materialized ι α) (y : Nat) (b : ι), j ≤ y → rest[y - j]? = some b →
      (matrix_from_callback_inner callback i a rest j st).result.coeff i y =
        some (callback a b) := by
  induction rest with
  | nil => intro j st y b _ h; simp at h
  | cons b0 r ih =>
    intro j st y b hj h
    simp only [matrix_from_callback_inner]
    by_cases hy : y = j
    · subst hy
      simp at h
      subst h
      rw [matrix_from_callback_inner_other callback i a r (y + 1) _ i y (by omega)]
      simp [DenseMatrix.assign]
    · have h1 : y - j = (y - (j + 1)) + 1 := by omega
      rw [h1, List.getElem?_cons_succ] at h
      exact ih (j + 1) _ y b (by omega) h

theorem matrix_from_callback_outer_dims (callback : ι → ι → α) (all : List ι) (rest : List ι) :
    ∀ (i : Nat) (st : Materialized ι α),
      (matrix_from_callback_outer callback all rest i st).result.rows = st.result.rows ∧
      (matrix_from_callback_outer callback all rest i st).result.cols = st.result.cols := by
  induction rest with
  | nil => intro i st; exact ⟨rfl, rfl⟩
  | cons a r ih =>
    intro i st
    simp only [matrix_from_callback_outer]
    have h := ih (i + 1) (matrix_from_callback_inner callback i a all 0 st)
    have h2 := matrix_from_callback_inner_dims callback i a all 0 st
    exact ⟨h.1.trans h2.1, h.2.trans h2.2⟩

theorem matrix_from_callback_outer_evaluations (callback : ι → ι → α) (all : List ι)
    (rest : List ι) :
    ∀ (i : Nat) (st : Materialized ι α),
      (matrix_from_callback_outer callback all rest i st).evaluations =
        st.evaluations ++ rest.flatMap (fun a => all.map (fun b => (a, b))) := by
  induction rest with
  | nil => intro i st; simp [matrix_from_callback_outer]
  | cons a r ih =>
    intro i st
    simp only [matrix_from_callback_outer]
    rw [ih, matrix_from_callback_inner_evaluations]
    simp

theorem matrix_from_callback_outer_other (callback : ι → ι → α) (all : List ι)
    (rest : List ι) :
    ∀ (i : Nat) (st : Materialized ι α) (x y : Nat), x < i →
      (matrix_from_callback_outer callback all rest i st).result.coeff x y =
        st.result.coeff x y := by
  induction rest with
  | nil => intro i st x y _; rfl
  | cons a r ih =>
    intro i st x y h
    simp only [matrix_from_callback_outer]
    rw [ih (i + 1) _ x y (by omega)]
    exact matrix_from_callback_inner_other callback i a all 0 st x y (by omega)

theorem matrix_from_callback_outer_entry (callback : ι → ι → α) (all : List ι)
    (rest : List ι) :
    ∀ (i : Nat) (st : Materialized ι α) (x y : Nat) (a b : ι), i ≤ x →
      rest[x - i]? = some a → all[y]? = some b →
      (matrix_from_callback_outer callback all rest i st).result.coeff x y =
        some (callback a b) := by
  induction rest with
  | nil => intro i st x y a b _ h; simp at h
  | cons a0 r ih =>
    intro i st x y a b hi ha hb
    simp only [matrix_from_callback_outer]
    by_cases hx : x = i
    · subst hx
      simp at ha
      subst ha
      rw [matrix_from_callback_outer_other callback all r (x + 1) _ x y (by omega)]
      exact matrix_from_callback_inner_entry callback x a0 all 0 st y b (by omega) (by simpa using hb)
    · have h1 : x - i = (x - (i + 1)) + 1 := by omega
      rw [h1, List.getElem?_cons_succ] at ha
      exact ih (i + 1) _ x y a b (by omega) ha hb

theorem matrix_from_callback_entry (indices : List ι) (callback : ι → ι → α)
    (i j : Nat) (hi : i < indices.length) (hj : j < indices.length) :
    (matrix_from_callback indices callback).result.coeff i j =
      some (callback indices[i] indices[j]) := by
  unfold matrix_from_callback
  apply matrix_from_callback_outer_entry callback indices indices 0 _ i j
  · omega
  · simp [hi]
  · simp [hj]

theorem pairs_length (l all : List ι) :
    (l.flatMap (fun a => all.map (fun b => (a, b)))).length = l.length * all.length := by
  induction l with
  | nil => simp
  | cons a r ih =>
    rw [List.flatMap_cons, List.length_append, ih, List.length_map, List.length_cons]
    ring

end materializer

/-! ### Items of a line -/

theorem line_items_nil : line_items [] = [] := by
  simp [line_items]

theorem line_items_space_cons (c : Char) (l : List Char) (hc : isspace c = true) :
    line_items (c :: l) = line_items l := by
  simp [line_items, List.splitOnP_cons, hc]

theorem line_items_spaces_append (ws l : List Char) (hws : ∀ c ∈ ws, isspace c = true) :
    line_items (ws ++ l) = line_items l := by
  induction ws with
  | nil => rfl
  | cons c ws ih =>
    rw [List.cons_append, line_items_space_cons _ _ (hws c (List.mem_cons_self _ _))]
    exact ih (fun d hd => hws d (List.mem_cons_of_mem _ hd))

theorem line_items_spaces (ws : List Char) (hws : ∀ c ∈ ws, isspace c = true) :
    line_items ws = [] := by
  have h := line_items_spaces_append ws [] hws
  rw [List.append_nil] at h
  rw [h, line_items_nil]

theorem line_items_item_append (item unread : List Char) (hne : item ≠ [])
    (hitem : ∀ c ∈ item, isspace c = false)
    (hunread : unread = [] ∨ ∃ c r, unread = c :: r ∧ isspace c = true) :
    line_items (item ++ unread) = item :: line_items unread := by
  have hno : ∀ x ∈ item, ¬ (isspace x = true) := by
    intro x hx
    rw [hitem x hx]
    simp
  rcases hunread with h | ⟨c, r, h, hc⟩
  · subst h
    rw [List.append_nil, line_items_nil]
    unfold line_items
    rw [List.splitOnP_eq_single isspace item hno]
    simp [hne]
  · subst h
    rw [line_items_space_cons c r hc]
    unfold line_items
    rw [List.splitOnP_first isspace item hno c hc r]
    simp [hne]

/-- Every line is white space only, or starts with white space followed by an
item and what is left after it. -/
theorem line_decompose (line : List Char) :
    (∀ c ∈ line, isspace c = true) ∨
    ∃ ws item unread, line = ws ++ item ++ unread ∧ (∀ c ∈ ws, isspace c = true) ∧
      item ≠ [] ∧ (∀ c ∈ item, isspace c = false) ∧
      (unread = [] ∨ ∃ c r, unread = c :: r ∧ isspace c = true) := by
  induction line with
  | nil => left; intro c hc; simp at hc
  | cons a l ih =>
    by_cases ha : isspace a = true
    · rcases ih with h | ⟨ws, item, unread, h1, h2, h3, h4, h5⟩
      · left
        intro c hc
        rcases List.mem_cons.mp hc with rfl | hc
        · exact ha
        · exact h c hc
      · right
        refine ⟨a :: ws, item, unread, by rw [h1]; rfl, ?_, h3, h4, h5⟩
        intro c hc
        rcases List.mem_cons.mp hc with rfl | hc
        · exact ha
        · exact h2 c hc
    · have ha' : isspace a = false := by simpa using ha
      right
      rcases ih with h | ⟨ws, item, unread, h1, h2, h3, h4, h5⟩
      · refine ⟨[], [a], l, rfl, by simp, by simp, by simpa using ha', ?_⟩
        cases l with
        | nil => left; rfl
        | cons b r => right; exact ⟨b, r, rfl, h b (List.mem_cons_self _ _)⟩
      · cases ws with
        | nil =>
          refine ⟨[], a :: item, unread, by rw [h1]; rfl, by simp, by simp, ?_, h5⟩
          intro c hc
          rcases List.mem_cons.mp hc with rfl | hc
          · exact ha'
          · exact h4 c hc
        | cons b ws =>
          refine ⟨[], [a], (b :: ws) ++ item ++ unread, by rw [h1]; rfl, by simp, by simp,
            by simpa using ha', ?_⟩
          right
          exact ⟨b, ws ++ item ++ unread, by simp, h2 b (List.mem_cons_self _ _)⟩

section row
variable {α : Type} (extract : List Char → Option (α × List Char))
  (numeral : List Char → Prop) (value : List Char → α)

theorem read_data_row_spec
    (hnum : ∀ ws item unread, (∀ c ∈ ws, isspace c = true) → numeral item →
      (unread = [] ∨ ∃ c r, unread = c :: r ∧ isspace c = true) →
      extract (ws ++ item ++ unread) = some (value item, unread))
    (hfail : ∀ ws, (∀ c ∈ ws, isspace c = true) → extract ws = none) :
    ∀ (k : Nat) (line : List Char) (fuel : Nat) (row : List α),
      line.length ≤ k → line.length + 1 ≤ fuel →
      (∀ item ∈ line_items line, numeral item) →
      read_data_row extract fuel line row = some (row ++ (line_items line).map value) := by
  intro k
  induction k with
  | zero =>
    intro line fuel row hk hfuel _
    have hnil : line = [] := List.length_eq_zero.mp (by omega)
    subst hnil
    obtain ⟨f, rfl⟩ : ∃ f, fuel = f + 1 := ⟨fuel - 1, by omega⟩
    simp [read_data_row, hfail [] (by simp), line_items_nil]
  | succ k ih =>
    intro line fuel row hk hfuel hitems
    obtain ⟨f, rfl⟩ : ∃ f, fuel = f + 1 := ⟨fuel - 1, by omega⟩
    rcases line_decompose line with hsp | ⟨ws, item, unread, h1, h2, h3, h4, h5⟩
    · simp [read_data_row, hfail line hsp, line_items_spaces line hsp]
    · have hit : line_items line = item :: line_items unread := by
        rw [h1, List.append_assoc, line_items_spaces_append ws _ h2,
          line_items_item_append item unread h3 h4 h5]
      have hlen : unread.length < line.length := by
        have : item.length ≠ 0 := fun h => h3 (List.length_eq_zero.mp h)
        rw [h1]
        simp only [List.length_append]
        omega
      have hnumeral : numeral item := hitems item (by rw [hit]; exact List.mem_cons_self _ _)
      have hex : extract line = some (value item, unread) := by
        rw [h1]
        exact hnum ws item unread h2 hnumeral h5
      simp only [read_data_row, hex]
      rw [ih unread f (row ++ [value item]) (by omega) (by omega)
        (fun it hmem => hitems it (by rw [hit]; exact List.mem_cons_of_mem _ hmem))]
      rw [hit]
      simp

end row


/-! ### The reading loop -/

theorem splitOnP_length_le (p : Char → Bool) (cs : List Char) :
    ∀ piece ∈ cs.splitOnP p, piece.length ≤ cs.length := by
  induction cs with
  | nil =>
    intro piece h
    simp only [List.splitOnP_nil, List.mem_singleton] at h
    subst h
    exact Nat.le_refl _
  | cons c cs ih =>
    intro piece h
    rw [List.splitOnP_cons] at h
    by_cases hc : p c = true
    · rw [if_pos hc] at h
      rcases List.mem_cons.mp h with rfl | h
      · simp
      · have := ih piece h
        simp only [List.length_cons]
        omega
    · rw [if_neg hc] at h
      cases hsp : cs.splitOnP p with
      | nil => exact absurd hsp (List.splitOnP_ne_nil p cs)
      | cons first others =>
        rw [hsp] at h ih
        simp only [List.modifyHead_cons] at h
        rcases List.mem_cons.mp h with rfl | h
        · have := ih first (List.mem_cons_self _ _)
          simp only [List.length_cons]
          omega
        · have := ih piece (List.mem_cons_of_mem _ h)
          simp only [List.length_cons]
          omega

theorem getline_chars_splitOnP (cs : List Char) :
    cs.splitOnP (fun c => c == '\n') =
      (if (getline_chars cs).2.2 then [(getline_chars cs).1]
       else (getline_chars cs).1 :: (getline_chars cs).2.1.splitOnP (fun c => c == '\n')) := by
  induction cs with
  | nil => simp [getline_chars, List.splitOnP_nil]
  | cons c cs ih =>
    rw [List.splitOnP_cons]
    by_cases hc : c = '\n'
    · simp [getline_chars, hc]
    · simp only [getline_chars, hc, if_false, beq_iff_eq]
      rw [ih]
      by_cases he : (getline_chars cs).2.2 = true
      · simp [he, List.modifyHead]
      · simp [he, List.modifyHead]

theorem getline_chars_length (cs : List Char) (h : (getline_chars cs).2.2 = false) :
    (getline_chars cs).2.1.length < cs.length := by
  induction cs with
  | nil => simp [getline_chars] at h
  | cons c cs ih =>
    by_cases hc : c = '\n'
    · simp [getline_chars, hc]
    · simp only [getline_chars, hc, if_false] at h ⊢
      have := ih h
      simp only [List.length_cons]
      omega

theorem read_data_lines_spec {α : Type} (extract : List Char → Option (α × List Char))
    (n : Nat) (rowf : List Char → List α) :
    ∀ (fuel : Nat) (cs str : List Char) (input_data : List (List α)),
      cs.length + 2 ≤ fuel →
      (∀ line ∈ (cs.splitOnP (fun c => c == '\n')).filter (fun line => line.length ≠ 0),
        read_data_row extract n line [] = some (rowf line)) →
      read_data_lines extract n fuel { chars := cs, eofbit := false, failbit := false } str
          input_data =
        some (input_data ++
          ((cs.splitOnP (fun c => c == '\n')).filter (fun line => line.length ≠ 0)).map
            rowf) := by
  intro fuel
  induction fuel with
  | zero => intro cs str input_data h; omega
  | succ fuel ih =>
    intro cs str input_data h hrow
    rw [getline_chars_splitOnP cs] at hrow ⊢
    by_cases he : (getline_chars cs).2.2 = true
    · obtain ⟨f, rfl⟩ : ∃ f, fuel = f + 1 := ⟨fuel - 1, by omega⟩
      by_cases hl : (getline_chars cs).1 = []
      · simp [read_data_lines, getline, he, hl]
      · have hr := hrow (getline_chars cs).1 (by simp [he, hl])
        simp [read_data_lines, getline, he, hl, hr]
    · have hlen := getline_chars_length cs (by simpa using he)
      have hne : cs.isEmpty = false := by
        cases cs with
        | nil => simp [getline_chars] at he
        | cons c cs => rfl
      by_cases hl : (getline_chars cs).1 = []
      · simp only [read_data_lines, getline, he, hne]
        simp [hl]
        rw [ih _ _ _ (by omega) (fun line hline => hrow line (by
          simp only [he] at hline ⊢
          simp only [Bool.false_eq_true, if_false, List.filter_cons]
          simp [hl]
          simpa using hline))]
        simp
      · have hr := hrow (getline_chars cs).1 (by simp [he, hl])
        simp only [read_data_lines, getline, he, hne]
        simp [hl, hr]
        rw [ih _ _ _ (by omega) (fun line hline => hrow line (by
          simp only [he] at hline ⊢
          simp only [Bool.false_eq_true, if_false, List.filter_cons]
          simp [hl]
          right
          simpa using hline))]
        simp

theorem read_data_lines_missing {α : Type} (extract : List Char → Option (α × List Char))
    (n : Nat) :
    ∀ (fuel : Nat) (str : List Char) (input_data : List (List α)),
      read_data_lines extract n fuel { chars := [], eofbit := false, failbit := true } str
        input_data = none ∨ str ≠ [] := by
  intro fuel
  induction fuel with
  | zero => intro str input_data; left; rfl
  | succ fuel ih =>
    intro str input_data
    by_cases hs : str = []
    · left
      subst hs
      simp only [read_data_lines, getline]
      simp
      rcases ih [] input_data with h | h
      · exact h
      · exact absurd rfl h
    · right; exact hs


theorem read_data_fill_row_spec {α : Type} (input_data : List (List α)) (i : Nat) :
    ∀ (k j : Nat) (fm : DenseMatrix α),
      (∀ y, j ≤ y → y < j + k → (row_entry input_data i y).isSome) →
      ∃ fm1, read_data_fill_row input_data i k j fm = .ok fm1 ∧
        fm1.rows = fm.rows ∧ fm1.cols = fm.cols ∧
        (∀ y, j ≤ y → y < j + k → fm1.coeff i y = row_entry input_data i y) ∧
        (∀ x y, (x ≠ i ∨ y < j) → fm1.coeff x y = fm.coeff x y) := by
  intro k
  induction k with
  | zero =>
    intro j fm _
    exact ⟨fm, rfl, rfl, rfl, fun y h1 h2 => by omega, fun _ _ _ => rfl⟩
  | succ k ih =>
    intro j fm h
    have hj := h j (by omega) (by omega)
    unfold row_entry at hj
    cases hrow : input_data[j]? with
    | none => simp [hrow] at hj
    | some row =>
      simp only [hrow] at hj
      cases hv : row[i]? with
      | none => simp [hv] at hj
      | some v =>
        obtain ⟨fm1, h1, h2, h3, h4, h5⟩ := ih (j + 1) (fm.assign i j v)
          (fun y hy1 hy2 => h y (by omega) (by omega))
        refine ⟨fm1, ?_, h2, h3, ?_, ?_⟩
        · simp only [read_data_fill_row, hrow, hv]
          exact h1
        · intro y hy1 hy2
          by_cases hy : y = j
          · subst hy
            rw [h5 i y (by omega)]
            simp [DenseMatrix.assign, row_entry, hrow, hv]
          · exact h4 y (by omega) (by omega)
        · intro x y hxy
          rw [h5 x y (by omega)]
          have : ¬ (x = i ∧ y = j) := by omega
          simp [DenseMatrix.assign, this]

theorem read_data_fill_spec {α : Type} (input_data : List (List α)) :
    ∀ (k i : Nat) (fm : DenseMatrix α),
      (∀ x y, i ≤ x → x < i + k → y < fm.cols → (row_entry input_data x y).isSome) →
      ∃ fm1, read_data_fill input_data k i fm = .ok fm1 ∧
        fm1.rows = fm.rows ∧ fm1.cols = fm.cols ∧
        (∀ x y, i ≤ x → x < i + k → y < fm.cols →
          fm1.coeff x y = row_entry input_data x y) ∧
        (∀ x y, x < i → fm1.coeff x y = fm.coeff x y) := by
  intro k
  induction k with
  | zero =>
    intro i fm _
    exact ⟨fm, rfl, rfl, rfl, fun x y h1 h2 => by omega, fun _ _ _ => rfl⟩
  | succ k ih =>
    intro i fm h
    obtain ⟨fm1, h1, h2, h3, h4, h5⟩ := read_data_fill_row_spec input_data i fm.cols 0 fm
      (fun y _ hy => h i y (by omega) (by omega) (by omega))
    obtain ⟨fm2, g1, g2, g3, g4, g5⟩ := ih (i + 1) fm1
      (fun x y hx1 hx2 hy => h x y (by omega) (by omega) (by omega))
    refine ⟨fm2, ?_, g2.trans h2, g3.trans h3, ?_, ?_⟩
    · simp only [read_data_fill, h1]
      exact g1
    · intro x y hx1 hx2 hy
      by_cases hx : x = i
      · subst hx
        rw [g5 x y (by omega)]
        exact h4 y (by omega) (by omega)
      · exact g4 x y (by omega) (by omega) (by omega)
    · intro x y hx
      rw [g5 x y (by omega), h5 x y (by omega)]

theorem read_data_matrix_spec {α : Type} (input_data : List (List α)) (D : Nat)
    (hfirst : ∃ row0, input_data[0]? = some row0 ∧ row0.length = D)
    (hD : ∀ row ∈ input_data, D ≤ row.length) :
    ∃ fm, read_data_matrix input_data = .ok fm ∧ fm.rows = D ∧ fm.cols = input_data.length ∧
      ∀ i j, i < D → j < input_data.length → fm.coeff i j = row_entry input_data i j := by
  obtain ⟨row0, hrow0, h0⟩ := hfirst
  have hsome : ∀ x y, 0 ≤ x → x < 0 + D → y < input_data.length →
      (row_entry input_data x y).isSome := by
    intro x y _ hx hy
    unfold row_entry
    rw [List.getElem?_eq_getElem hy]
    have hlen : D ≤ (input_data[y]).length := hD _ (List.getElem_mem _)
    simp only []
    rw [List.getElem?_eq_getElem (by omega)]
    rfl
  obtain ⟨fm, h1, h2, h3, h4, _⟩ := read_data_fill_spec input_data D 0
    (DenseMatrix.sized row0.length input_data.length) hsome
  refine ⟨fm, ?_, ?_, ?_, ?_⟩
  · simp only [read_data_matrix, hrow0]
    simp only [DenseMatrix.sized] at h1 ⊢
    rw [h0] at h1 ⊢
    exact h1
  · rw [h2]; simp [DenseMatrix.sized, h0]
  · rw [h3]; simp [DenseMatrix.sized]
  · intro i j hi hj
    exact h4 i j (by omega) (by omega) (by simpa [DenseMatrix.sized] using hj)

/-- The matrix `read_data` returns when the first non-empty line holds `D`
items and every non-empty line at least `D`, all of them numerals. -/
theorem read_data_spec {α : Type} (extract : List Char → Option (α × List Char))
    (numeral : List Char → Prop) (value : List Char → α)
    (files : String → Option String) (filename contents : String) (D fuel : Nat)
    (hnum : ∀ ws item unread, (∀ c ∈ ws, isspace c = true) → numeral item →
      (unread = [] ∨ ∃ c r, unread = c :: r ∧ isspace c = true) →
      extract (ws ++ item ++ unread) = some (value item, unread))
    (hfail : ∀ ws, (∀ c ∈ ws, isspace c = true) → extract ws = none)
    (hfile : files filename = some contents)
    (hfirst : ∃ line, (nonempty_lines contents)[0]? = some line ∧ (line_items line).length = D)
    (hD : ∀ line ∈ nonempty_lines contents,
      D ≤ (line_items line).length ∧ ∀ item ∈ line_items line, numeral item)
    (hfuel : contents.length + 2 ≤ fuel) :
    ∃ fm, read_data extract files fuel filename = some (.ok fm) ∧
      fm.rows = D ∧ fm.cols = (nonempty_lines contents).length ∧
      ∀ i j line item, i < D → (nonempty_lines contents)[j]? = some line →
        (line_items line)[i]? = some item → fm.coeff i j = some (value item) := by
  have hrow : ∀ line ∈ nonempty_lines contents,
      read_data_row extract fuel line [] = some ((line_items line).map value) := by
    intro line hline
    have hpiece : line ∈ text_lines contents := (List.mem_filter.mp hline).1
    have hlen : line.length ≤ contents.toList.length :=
      splitOnP_length_le _ contents.toList line hpiece
    have hlen2 : contents.toList.length = contents.length := rfl
    have h := read_data_row_spec extract numeral value hnum hfail line.length line fuel []
      (Nat.le_refl _) (by omega) (hD line hline).2
    simpa using h
  have hlines : read_data_lines extract fuel fuel (ifstream_open files filename) [] [] =
      some ((nonempty_lines contents).map (fun line => (line_items line).map value)) := by
    unfold ifstream_open
    rw [hfile]
    have h := read_data_lines_spec extract fuel (fun line => (line_items line).map value)
      fuel contents.toList [] [] hfuel hrow
    simpa [nonempty_lines, text_lines] using h
  have hfirst1 : ∃ row0,
      ((nonempty_lines contents).map (fun line => (line_items line).map value))[0]? =
        some row0 ∧ row0.length = D := by
    obtain ⟨line, hline, hlen⟩ := hfirst
    refine ⟨(line_items line).map value, ?_, by rw [List.length_map]; exact hlen⟩
    rw [List.getElem?_map, hline]
    rfl
  have hrows : ∀ row ∈ (nonempty_lines contents).map (fun line => (line_items line).map value),
      D ≤ row.length := by
    intro row hmem
    obtain ⟨line, hline, rfl⟩ := List.mem_map.mp hmem
    rw [List.length_map]
    exact (hD line hline).1
  obtain ⟨fm, h1, h2, h3, h4⟩ := read_data_matrix_spec _ D hfirst1 hrows
  refine ⟨fm, ?_, h2, ?_, ?_⟩
  · simp only [read_data, hlines, h1]
  · rw [h3, List.length_map]
  · intro i j line item hilt hj hi
    obtain ⟨hjlt, _⟩ := List.getElem?_eq_some_iff.mp hj
    rw [h4 i j hilt (by simpa using hjlt)]
    unfold row_entry
    rw [List.getElem?_map, hj]
    simp only [Option.map_some']
    rw [List.getElem?_map, hi]
    rfl

/-- On a file that cannot be opened the loop of `read_data` does not end: no
amount of fuel gives a result. -/
theorem read_data_missing_file {α : Type} (extract : List Char → Option (α × List Char))
    (files : String → Option String) (filename : String) (hfile : files filename = none)
    (fuel : Nat) : read_data extract files fuel filename = none := by
  unfold read_data ifstream_open
  rw [hfile]
  rcases read_data_lines_missing extract fuel fuel [] [] with h | h
  · simp only []
    rw [h]
  · exact absurd rfl h

/-! ### The sample extraction -/

theorem isspace_of_isdigit (c : Char) (h : isdigit c = true) : isspace c = false := by
  unfold isdigit at h
  simp only [Bool.and_eq_true, decide_eq_true_eq] at h
  unfold isspace
  have h1 : c ≠ ' ' := by rintro rfl; revert h; decide
  have h2 : c ≠ '\t' := by rintro rfl; revert h; decide
  have h3 : c ≠ '\n' := by rintro rfl; revert h; decide
  have h4 : c ≠ Char.ofNat 11 := by rintro rfl; revert h; decide
  have h5 : c ≠ Char.ofNat 12 := by rintro rfl; revert h; decide
  have h6 : c ≠ '\r' := by rintro rfl; revert h; decide
  simp [h1, h2, h3, h4, h5, h6]

theorem dropWhile_append_all (p : Char → Bool) (ws l : List Char) (h : ∀ c ∈ ws, p c = true) :
    (ws ++ l).dropWhile p = l.dropWhile p := by
  induction ws with
  | nil => rfl
  | cons c ws ih =>
    rw [List.cons_append, List.dropWhile_cons, h c (List.mem_cons_self _ _)]
    exact ih (fun d hd => h d (List.mem_cons_of_mem _ hd))

theorem takeWhile_append_all (p : Char → Bool) (ws l : List Char) (h : ∀ c ∈ ws, p c = true) :
    (ws ++ l).takeWhile p = ws ++ l.takeWhile p := by
  induction ws with
  | nil => rfl
  | cons c ws ih =>
    rw [List.cons_append, List.takeWhile_cons, h c (List.mem_cons_self _ _)]
    simp only [if_true, List.cons_append]
    rw [ih (fun d hd => h d (List.mem_cons_of_mem _ hd))]

theorem sample_extract_numeral (ws item unread : List Char)
    (hws : ∀ c ∈ ws, isspace c = true) (hitem : sample_numeral item)
    (hunread : unread = [] ∨ ∃ c r, unread = c :: r ∧ isspace c = true) :
    sample_extract (ws ++ item ++ unread) = some (sample_value item 0, unread) := by
  obtain ⟨hne, hdig⟩ := hitem
  have hun1 : unread.takeWhile isdigit = [] ∧ unread.dropWhile isdigit = unread := by
    rcases hunread with h | ⟨c, r, h, hc⟩
    · subst h; exact ⟨rfl, rfl⟩
    · subst h
      have hd : isdigit c = false := by
        cases hdc : isdigit c with
        | false => rfl
        | true => rw [isspace_of_isdigit c hdc] at hc; exact absurd hc (by simp)
      simp [List.takeWhile_cons, List.dropWhile_cons, hd]
  have h1 : (ws ++ item ++ unread).dropWhile isspace = item ++ unread := by
    rw [List.append_assoc, dropWhile_append_all isspace ws _ hws]
    cases item with
    | nil => exact absurd rfl hne
    | cons a item =>
      rw [List.cons_append, List.dropWhile_cons,
        isspace_of_isdigit a (hdig a (List.mem_cons_self _ _))]
      rfl
  have h2 : (item ++ unread).takeWhile isdigit = item := by
    rw [takeWhile_append_all isdigit item unread hdig, hun1.1, List.append_nil]
  have h3 : (item ++ unread).dropWhile isdigit = unread := by
    rw [dropWhile_append_all isdigit item unread hdig, hun1.2]
  unfold sample_extract
  rw [h1, h2, h3, if_neg hne]

theorem sample_extract_spaces (ws : List Char) (hws : ∀ c ∈ ws, isspace c = true) :
    sample_extract ws = none := by
  have h1 : ws.dropWhile isspace = [] := by
    have h := dropWhile_append_all isspace ws [] hws
    rw [List.append_nil] at h
    exact h
  unfold sample_extract
  rw [h1]
  rfl

/-! ### The program -/

theorem main_wrong_argc {α : Type} (env : Env α) (fuel : Nat) (argv : List String)
    (hlen : argv.length ≠ 6) :
    main env fuel argv = some { trace := usage_events, status := .exited EXIT_FAILURE } := by
  unfold main
  rw [if_pos hlen]

theorem main_bad_reduction {α : Type} (env : Env α) (fuel : Nat) (argv : List String)
    (hlen : argv.length = 6) (h1 : argv.getD 1 "" ∉ reduction_tokens) :
    main env fuel argv =
      some { trace := [.parse_reduction_method (argv.getD 1 ""),
                       .printf (not_supported_message (argv.getD 1 ""))]
             status := .exited EXIT_FAILURE } := by
  unfold main
  rw [if_neg (by simpa using hlen), parse_reduction_method_of_not_mem _ h1]

theorem main_bad_neighbors {α : Type} (env : Env α) (fuel : Nat) (argv : List String)
    (hlen : argv.length = 6) (h1 : argv.getD 1 "" ∈ reduction_tokens)
    (h2 : argv.getD 2 "" ∉ neighbors_tokens) :
    main env fuel argv =
      some { trace := [.parse_reduction_method (argv.getD 1 ""),
                       .parse_neighbors_method (argv.getD 2 ""),
                       .printf (not_supported_message (argv.getD 2 ""))]
             status := .exited EXIT_FAILURE } := by
  obtain ⟨m, hm⟩ := parse_reduction_method_of_mem _ h1
  unfold main
  rw [if_neg (by simpa using hlen), hm, parse_neighbors_method_of_not_mem _ h2]

theorem main_bad_eigen {α : Type} (env : Env α) (fuel : Nat) (argv : List String)
    (hlen : argv.length = 6) (h1 : argv.getD 1 "" ∈ reduction_tokens)
    (h2 : argv.getD 2 "" ∈ neighbors_tokens) (h3 : argv.getD 3 "" ∉ eigen_tokens) :
    main env fuel argv =
      some { trace := [.parse_reduction_method (argv.getD 1 ""),
                       .parse_neighbors_method (argv.getD 2 ""),
                       .parse_eigen_method (argv.getD 3 ""),
                       .printf (not_supported_message (argv.getD 3 ""))]
             status := .exited EXIT_FAILURE } := by
  obtain ⟨m, hm⟩ := parse_reduction_method_of_mem _ h1
  obtain ⟨n, hn⟩ := parse_neighbors_method_of_mem _ h2
  unfold main
  rw [if_neg (by simpa using hlen), hm, hn, parse_eigen_method_of_not_mem _ h3]

theorem main_configured {α : Type} (env : Env α) (fuel : Nat) (argv : List String)
    (hlen : argv.length = 6) (h1 : argv.getD 1 "" ∈ reduction_tokens)
    (h2 : argv.getD 2 "" ∈ neighbors_tokens) (h3 : argv.getD 3 "" ∈ eigen_tokens) :
    ∃ m n e, main env fuel argv =
      main_run env fuel
        [.parse_reduction_method (argv.getD 1 ""), .parse_neighbors_method (argv.getD 2 ""),
         .parse_eigen_method (argv.getD 3 "")]
        (main_parameters m n e (argv.getD 4 "") (argv.getD 5 "")) := by
  obtain ⟨m, hm⟩ := parse_reduction_method_of_mem _ h1
  obtain ⟨n, hn⟩ := parse_neighbors_method_of_mem _ h2
  obtain ⟨e, he⟩ := parse_eigen_method_of_mem _ h3
  refine ⟨m, n, e, ?_⟩
  unfold main
  rw [if_neg (by simpa using hlen), hm, hn, he]


theorem main_run_loaded {α : Type} (env : Env α) (fuel : Nat) (before : List (Event α))
    (parameters : ParametersMap) (input_data : DenseMatrix α)
    (hread : read_data env.extract env.files fuel "input.dat" = some (.ok input_data))
    (hbefore : before.filterMap Event.embed_call = []) :
    ∃ out, main_run env fuel before parameters = some out ∧
      out.embed_calls = [main_embed_call env parameters input_data] := by
  unfold main_run
  rw [hread]
  simp only []
  cases hemb : env.embed (main_data_indices input_data) (main_kcb env input_data)
      (main_dcb env input_data) (env.feature_vector_callback input_data)
      (parameters.set .CURRENT_DIMENSION
        (.unsigned_int (static_cast_unsigned_int input_data.rows))) with
  | none =>
    refine ⟨_, rfl, ?_⟩
    simp [Outcome.embed_calls, List.filterMap_append, hbefore, Event.embed_call, main_embed_call]
  | some embedding =>
    refine ⟨_, rfl, ?_⟩
    simp [Outcome.embed_calls, List.filterMap_append, hbefore, Event.embed_call, main_embed_call]

theorem main_run_embed_calls {α : Type} (env : Env α) (fuel : Nat) (before : List (Event α))
    (parameters : ParametersMap) (out : Outcome α)
    (hrun : main_run env fuel before parameters = some out)
    (hbefore : before.filterMap Event.embed_call = []) :
    ∀ c ∈ out.embed_calls, ∃ input_data,
      read_data env.extract env.files fuel "input.dat" = some (.ok input_data) ∧
      c = main_embed_call env parameters input_data := by
  intro c hc
  cases hread : read_data env.extract env.files fuel "input.dat" with
  | none =>
    unfold main_run at hrun
    rw [hread] at hrun
    simp at hrun
  | some r =>
    cases r with
    | error e =>
      unfold main_run at hrun
      rw [hread] at hrun
      simp only [Option.some.injEq] at hrun
      subst hrun
      simp [Outcome.embed_calls, List.filterMap_append, hbefore, Event.embed_call] at hc
    | ok input_data =>
      obtain ⟨out1, h1, h2⟩ := main_run_loaded env fuel before parameters input_data hread hbefore
      rw [hrun] at h1
      simp only [Option.some.injEq] at h1
      subst h1
      rw [h2] at hc
      simp only [List.mem_singleton] at hc
      exact ⟨input_data, rfl, hc⟩

theorem main_parameters_values (m : TAPKEE_METHOD) (n : TAPKEE_NEIGHBORS_METHOD)
    (e : TAPKEE_EIGEN_EMBEDDING_METHOD) (argv4 argv5 : String) (v : ParamValue) :
    ((main_parameters m n e argv4 argv5).set .CURRENT_DIMENSION v) .NUMBER_OF_NEIGHBORS =
        some (.unsigned_int (static_cast_unsigned_int (atoi argv4))) ∧
    ((main_parameters m n e argv4 argv5).set .CURRENT_DIMENSION v) .TARGET_DIMENSION =
        some (.unsigned_int (static_cast_unsigned_int (atoi argv5))) ∧
    ((main_parameters m n e argv4 argv5).set .CURRENT_DIMENSION v) .GAUSSIAN_KERNEL_WIDTH =
        some (.scalar 1000) ∧
    ((main_parameters m n e argv4 argv5).set .CURRENT_DIMENSION v) TAPKEE_PARAMETERS.LANDMARK_RATIO =
        some (.scalar (2 / 10)) ∧
    ((main_parameters m n e argv4 argv5).set .CURRENT_DIMENSION v) .SPE_TOLERANCE =
        some (.scalar (1 / 100000)) ∧
    ((main_parameters m n e argv4 argv5).set .CURRENT_DIMENSION v) .CURRENT_DIMENSION =
        some v := by
  refine ⟨rfl, rfl, rfl, rfl, rfl, rfl⟩

theorem static_cast_unsigned_int_natCast (n : Nat) :
    static_cast_unsigned_int (n : Int) = n % 4294967296 := by
  unfold static_cast_unsigned_int
  omega

theorem data_indices_loop_eq :
    ∀ (k i : Nat) (data_indices : List Nat),
      data_indices_loop k i data_indices = data_indices ++ List.range' i k := by
  intro k
  induction k with
  | zero => intro i data_indices; simp [data_indices_loop]
  | succ k ih =>
    intro i data_indices
    simp only [data_indices_loop]
    rw [ih, List.range'_succ]
    simp

theorem main_data_indices_eq {α : Type} (input_data : DenseMatrix α) :
    main_data_indices input_data = List.range input_data.cols := by
  unfold main_data_indices
  rw [data_indices_loop_eq, List.range_eq_range']
  simp

/-! ## The claims -/

/-- Claim C1. For every index sequence and every callback, whether symmetric
or not, `matrix_from_callback` yields a matrix with as many rows and as many
columns as there are indices, whose coefficient at row `i`, column `j` is the
callback's value at the `i`-th and `j`-th index, the diagonal included; the
callback is evaluated once for each ordered pair of positions, row by row,
which makes `N * N` evaluations. -/
theorem matrix_from_callback_all_pairs {ι α : Type} (indices : List ι) (callback : ι → ι → α) :
    (matrix_from_callback indices callback).result.rows = indices.length
    ∧ (matrix_from_callback indices callback).result.cols = indices.length
    ∧ (∀ i j : Fin indices.length,
        (matrix_from_callback indices callback).result.coeff i j =
          some (callback (indices.get i) (indices.get j)))
    ∧ (matrix_from_callback indices callback).evaluations =
        indices.flatMap (fun a => indices.map (fun b => (a, b)))
    ∧ (matrix_from_callback indices callback).evaluations.length =
        indices.length * indices.length := by
  have hev : (matrix_from_callback indices callback).evaluations =
      indices.flatMap (fun a => indices.map (fun b => (a, b))) := by
    unfold matrix_from_callback
    rw [matrix_from_callback_outer_evaluations]
    simp
  refine ⟨?_, ?_, ?_, hev, ?_⟩
  · exact (matrix_from_callback_outer_dims callback indices indices 0 _).1
  · exact (matrix_from_callback_outer_dims callback indices indices 0 _).2
  · intro i j
    exact matrix_from_callback_entry indices callback i j i.isLt j.isLt
  · rw [hev, pairs_length]

/-- Claim C2. For a symmetric callback and whatever index sequence, the
coefficients `(i,j)` and `(j,i)` of the matrix `matrix_from_callback` yields
have both been assigned, and assigned the same value, the callback's value
at the `i`-th and `j`-th index; on the index sequence `0, ..., N-1` the
diagonal coefficient `i` has been assigned the callback's value at
`(i,i)`. -/
theorem matrix_from_callback_symmetric {α : Type} (indices : List Nat) (N : Nat)
    (f : Nat → Nat → α) (hsym : ∀ a b, f a b = f b a) :
    (∀ i j : Fin indices.length,
      (matrix_from_callback indices f).result.coeff i j =
        some (f (indices.get i) (indices.get j))
      ∧ (matrix_from_callback indices f).result.coeff j i =
        some (f (indices.get i) (indices.get j))
      ∧ (matrix_from_callback indices f).result.coeff i j =
        (matrix_from_callback indices f).result.coeff j i)
    ∧ (∀ i : Fin N,
      (matrix_from_callback (List.range N) f).result.coeff i i = some (f i i)) := by
  constructor
  · intro i j
    have hij := matrix_from_callback_entry indices f i j i.isLt j.isLt
    have hji := matrix_from_callback_entry indices f j i j.isLt i.isLt
    have hji1 : (matrix_from_callback indices f).result.coeff j i =
        some (f (indices.get i) (indices.get j)) := by
      rw [hji, hsym]
      rfl
    exact ⟨hij, hji1, hij.trans hji1.symm⟩
  · intro i
    rw [matrix_from_callback_entry _ f i i (by simp) (by simp)]
    simp

/-- Claim C2 on the indices `2, 0, 1` and on `0, 1, 2`, with the sum as the
callback. -/
theorem matrix_from_callback_symmetric_witness :
    (∀ a b : Nat, a + b = b + a) ∧
    ((∀ i j : Fin [2, 0, 1].length,
      (matrix_from_callback [2, 0, 1] (fun a b : Nat => a + b)).result.coeff i j =
        some (([2, 0, 1] : List Nat).get i + ([2, 0, 1] : List Nat).get j)
      ∧ (matrix_from_callback [2, 0, 1] (fun a b : Nat => a + b)).result.coeff j i =
        some (([2, 0, 1] : List Nat).get i + ([2, 0, 1] : List Nat).get j)
      ∧ (matrix_from_callback [2, 0, 1] (fun a b : Nat => a + b)).result.coeff i j =
        (matrix_from_callback [2, 0, 1] (fun a b : Nat => a + b)).result.coeff j i)
    ∧ (∀ i : Fin 3,
      (matrix_from_callback (List.range 3) (fun a b : Nat => a + b)).result.coeff i i =
        some ((i : Nat) + (i : Nat)))) :=
  ⟨Nat.add_comm, matrix_from_callback_symmetric [2, 0, 1] 3 (fun a b : Nat => a + b) Nat.add_comm⟩

/-- Claim C3. `parse_reduction_method` returns, on each of its 14 tokens, the
variant the token names; it sends different tokens to different variants, and
every variant of `TAPKEE_METHOD` is returned on some token. -/
theorem parse_reduction_method_vocabulary :
    (parse_reduction_method "kltsa" = .ret .KERNEL_LOCAL_TANGENT_SPACE_ALIGNMENT
      ∧ parse_reduction_method "klle" = .ret .KERNEL_LOCALLY_LINEAR_EMBEDDING
      ∧ parse_reduction_method "mds" = .ret .MULTIDIMENSIONAL_SCALING
      ∧ parse_reduction_method "lmds" = .ret .LANDMARK_MULTIDIMENSIONAL_SCALING
      ∧ parse_reduction_method "isomap" = .ret .ISOMAP
      ∧ parse_reduction_method "diffusion_map" = .ret .DIFFUSION_MAP
      ∧ parse_reduction_method "kpca" = .ret .KERNEL_PCA
      ∧ parse_reduction_method "pca" = .ret .PCA
      ∧ parse_reduction_method "laplacian_eigenmaps" = .ret .LAPLACIAN_EIGENMAPS
      ∧ parse_reduction_method "lpp" = .ret .LOCALITY_PRESERVING_PROJECTIONS
      ∧ parse_reduction_method "npe" = .ret .NEIGHBORHOOD_PRESERVING_EMBEDDING
      ∧ parse_reduction_method "lltsa" = .ret .LINEAR_LOCAL_TANGENT_SPACE_ALIGNMENT
      ∧ parse_reduction_method "spe" = .ret .STOCHASTIC_PROXIMITY_EMBEDDING
      ∧ parse_reduction_method "lisomap" = .ret .LANDMARK_ISOMAP)
    ∧ reduction_tokens.length = 14
    ∧ (∀ s ∈ reduction_tokens, ∀ t ∈ reduction_tokens,
        parse_reduction_method s = parse_reduction_method t → s = t)
    ∧ (∀ m : TAPKEE_METHOD, ∃ s ∈ reduction_tokens, parse_reduction_method s = .ret m) := by
  refine ⟨by decide, by decide, ?_, ?_⟩
  · decide
  · intro m
    cases m <;> decide

/-- Claim C4. For each of the three selectors and every string `s`: either `s`
is one of the selector's tokens and the selector returns a variant, or `s` is
not (a token in another case or with further characters is not) and the run
ends in `exit(EXIT_FAILURE)` after printing the message that holds `s`
unchanged; in the second case nothing is returned, the statement after `exit`
included. -/
theorem selectors_fail_outside_vocabulary (s : String) :
    ((s ∈ reduction_tokens ∧ ∃ m, parse_reduction_method s = .ret m)
      ∨ (s ∉ reduction_tokens ∧
          parse_reduction_method s = .exit ("Method " ++ s ++ " is not supported (yet?)\n") EXIT_FAILURE))
    ∧ ((s ∈ neighbors_tokens ∧ ∃ m, parse_neighbors_method s = .ret m)
      ∨ (s ∉ neighbors_tokens ∧
          parse_neighbors_method s = .exit ("Method " ++ s ++ " is not supported (yet?)\n") EXIT_FAILURE))
    ∧ ((s ∈ eigen_tokens ∧ ∃ m, parse_eigen_method s = .ret m)
      ∨ (s ∉ eigen_tokens ∧
          parse_eigen_method s = .exit ("Method " ++ s ++ " is not supported (yet?)\n") EXIT_FAILURE)) := by
  refine ⟨?_, ?_, ?_⟩
  · by_cases h : s ∈ reduction_tokens
    · exact Or.inl ⟨h, parse_reduction_method_of_mem s h⟩
    · exact Or.inr ⟨h, parse_reduction_method_of_not_mem s h⟩
  · by_cases h : s ∈ neighbors_tokens
    · exact Or.inl ⟨h, parse_neighbors_method_of_mem s h⟩
    · exact Or.inr ⟨h, parse_neighbors_method_of_not_mem s h⟩
  · by_cases h : s ∈ eigen_tokens
    · exact Or.inl ⟨h, parse_eigen_method_of_mem s h⟩
    · exact Or.inr ⟨h, parse_eigen_method_of_not_mem s h⟩

/-- Claim C5. `parse_neighbors_method` returns a variant on exactly the tokens
`brute` (`BRUTE_FORCE`) and `covertree` (`COVER_TREE`), `parse_eigen_method`
on exactly `dense` (`EIGEN_DENSE_SELFADJOINT_SOLVER`), `arpack` (`ARPACK`) and
`randomized` (`RANDOMIZED`); each sends different tokens to different
variants and reaches every variant of its enumeration. -/
theorem parse_neighbors_eigen_vocabulary :
    (∀ s m, parse_neighbors_method s = .ret m ↔
        (s = "brute" ∧ m = .BRUTE_FORCE) ∨ (s = "covertree" ∧ m = .COVER_TREE))
    ∧ (∀ s m, parse_eigen_method s = .ret m ↔
        (s = "dense" ∧ m = .EIGEN_DENSE_SELFADJOINT_SOLVER) ∨ (s = "arpack" ∧ m = .ARPACK)
          ∨ (s = "randomized" ∧ m = .RANDOMIZED))
    ∧ (∀ s ∈ neighbors_tokens, ∀ t ∈ neighbors_tokens,
        parse_neighbors_method s = parse_neighbors_method t → s = t)
    ∧ (∀ s ∈ eigen_tokens, ∀ t ∈ eigen_tokens,
        parse_eigen_method s = parse_eigen_method t → s = t)
    ∧ (∀ m : TAPKEE_NEIGHBORS_METHOD, ∃ s ∈ neighbors_tokens, parse_neighbors_method s = .ret m)
    ∧ (∀ m : TAPKEE_EIGEN_EMBEDDING_METHOD, ∃ s ∈ eigen_tokens, parse_eigen_method s = .ret m) := by
  refine ⟨?_, ?_, by decide, by decide, ?_, ?_⟩
  · intro s m
    rw [parse_neighbors_method_eq]
    split_ifs with h1 h2
    · subst h1; cases m <;> simp
    · subst h2; cases m <;> simp
    · simp [h1, h2]
  · intro s m
    rw [parse_eigen_method_eq]
    split_ifs with h1 h2 h3
    · subst h1; cases m <;> simp
    · subst h2; cases m <;> simp
    · subst h3; cases m <;> simp
    · simp [h1, h2, h3]
  · intro m; cases m <;> decide
  · intro m; cases m <;> decide

/-- Claim C6. When `main` is not given exactly 5 arguments, or its first,
second or third argument is not a token of the reduction, neighbour or eigen
selector, the run ends with status `EXIT_FAILURE`, whatever the fuel, without
a call of `read_data` or `embed` and without opening or writing an output
file; with a wrong number of arguments no selector is called either. -/
theorem main_rejects_before_reading {α : Type} (env : Env α) (fuel : Nat) (argv : List String)
    (h : argv.length ≠ 6 ∨ argv.getD 1 "" ∉ reduction_tokens ∨
      argv.getD 2 "" ∉ neighbors_tokens ∨ argv.getD 3 "" ∉ eigen_tokens) :
    ∃ out, main env fuel argv = some out ∧ out.status = .exited EXIT_FAILURE ∧
      (∀ e ∈ out.trace, e.is_read_data = false ∧ e.is_embed = false ∧ e.is_output = false) ∧
      (argv.length ≠ 6 → ∀ e ∈ out.trace, e.is_parse = false) := by
  by_cases hlen : argv.length = 6
  · have h' : argv.getD 1 "" ∉ reduction_tokens ∨
        argv.getD 2 "" ∉ neighbors_tokens ∨ argv.getD 3 "" ∉ eigen_tokens := by
      rcases h with h | h
      · exact absurd hlen h
      · exact h
    by_cases h1 : argv.getD 1 "" ∈ reduction_tokens
    · by_cases h2 : argv.getD 2 "" ∈ neighbors_tokens
      · have h3 : argv.getD 3 "" ∉ eigen_tokens := by
          rcases h' with h | h | h
          · exact absurd h1 h
          · exact absurd h2 h
          · exact h
        refine ⟨_, main_bad_eigen env fuel argv hlen h1 h2 h3, rfl, ?_,
          fun hc => absurd hlen hc⟩
        intro e he
        simp only [List.mem_cons, List.mem_singleton, List.not_mem_nil, or_false] at he
        rcases he with rfl | rfl | rfl | rfl <;> exact ⟨rfl, rfl, rfl⟩
      · refine ⟨_, main_bad_neighbors env fuel argv hlen h1 h2, rfl, ?_,
          fun hc => absurd hlen hc⟩
        intro e he
        simp only [List.mem_cons, List.mem_singleton, List.not_mem_nil, or_false] at he
        rcases he with rfl | rfl | rfl <;> exact ⟨rfl, rfl, rfl⟩
    · refine ⟨_, main_bad_reduction env fuel argv hlen h1, rfl, ?_,
        fun hc => absurd hlen hc⟩
      intro e he
      simp only [List.mem_cons, List.mem_singleton, List.not_mem_nil, or_false] at he
      rcases he with rfl | rfl <;> exact ⟨rfl, rfl, rfl⟩
  · refine ⟨_, main_wrong_argc env fuel argv hlen, rfl, ?_, ?_⟩
    · intro e he
      simp only [usage_events, List.mem_cons, List.mem_singleton, List.not_mem_nil,
        or_false] at he
      rcases he with rfl | rfl <;> exact ⟨rfl, rfl, rfl⟩
    · intro _ e he
      simp only [usage_events, List.mem_cons, List.mem_singleton, List.not_mem_nil,
        or_false] at he
      rcases he with rfl | rfl <;> rfl

/-- Claim C6 on a run with two arguments and on no file system at all. -/
theorem main_rejects_before_reading_witness :
    (["tapkee", "pca", "brute"].length ≠ 6 ∨
      ["tapkee", "pca", "brute"].getD 1 "" ∉ reduction_tokens ∨
      ["tapkee", "pca", "brute"].getD 2 "" ∉ neighbors_tokens ∨
      ["tapkee", "pca", "brute"].getD 3 "" ∉ eigen_tokens) ∧
    ∃ out, main (sample_env none false) 0 ["tapkee", "pca", "brute"] = some out ∧
      out.status = .exited EXIT_FAILURE ∧
      (∀ e ∈ out.trace, e.is_read_data = false ∧ e.is_embed = false ∧ e.is_output = false) ∧
      (["tapkee", "pca", "brute"].length ≠ 6 → ∀ e ∈ out.trace, e.is_parse = false) :=
  ⟨Or.inl (by decide),
    main_rejects_before_reading (sample_env none false) 0 ["tapkee", "pca", "brute"]
      (Or.inl (by decide))⟩

/-- Claim C7. `numeral` and `value` say which items the library converts and
to what: an item that is a numeral, after white space and followed by white
space or by the end of the line, is extracted with its value, and from white
space alone nothing is extracted. When the file holds a text with at least
one non-empty line and every non-empty line holds exactly `D` white space
separated items, all numerals, `read_data` returns (its loops end within as
many iterations as the text has characters, plus 2) a matrix with `D` rows
and one column for each non-empty line, in the order of the lines, whose
coefficient `(i,j)` is the value of the `i`-th item of the `j`-th non-empty
line; empty lines give no column. -/
theorem read_data_transposes {α : Type} (extract : List Char → Option (α × List Char))
    (numeral : List Char → Prop) (value : List Char → α)
    (files : String → Option String) (filename contents : String) (D fuel : Nat)
    (hnum : ∀ ws item unread, (∀ c ∈ ws, isspace c = true) → numeral item →
      (unread = [] ∨ ∃ c r, unread = c :: r ∧ isspace c = true) →
      extract (ws ++ item ++ unread) = some (value item, unread))
    (hfail : ∀ ws, (∀ c ∈ ws, isspace c = true) → extract ws = none)
    (hfile : files filename = some contents)
    (hR : 1 ≤ (nonempty_lines contents).length)
    (hD : ∀ line ∈ nonempty_lines contents,
      (line_items line).length = D ∧ ∀ item ∈ line_items line, numeral item)
    (hfuel : contents.length + 2 ≤ fuel) :
    ∃ fm, read_data extract files fuel filename = some (.ok fm) ∧
      fm.rows = D ∧ fm.cols = (nonempty_lines contents).length ∧
      ∀ i j line item, (nonempty_lines contents)[j]? = some line →
        (line_items line)[i]? = some item → fm.coeff i j = some (value item) := by
  have hfirst : ∃ line, (nonempty_lines contents)[0]? = some line ∧
      (line_items line).length = D := by
    refine ⟨(nonempty_lines contents)[0], List.getElem?_eq_getElem (by omega), ?_⟩
    exact (hD _ (List.getElem_mem _)).1
  obtain ⟨fm, h1, h2, h3, h4⟩ := read_data_spec extract numeral value files filename contents
    D fuel hnum hfail hfile hfirst
    (fun line hline => ⟨Nat.le_of_eq (hD line hline).1.symm, (hD line hline).2⟩) hfuel
  refine ⟨fm, h1, h2, h3, ?_⟩
  intro i j line item hj hi
  obtain ⟨hilt, _⟩ := List.getElem?_eq_some_iff.mp hi
  have hlen : (line_items line).length = D := (hD line (List.getElem?_mem hj)).1
  exact h4 i j line item (by omega) hj hi

/-- Claim C7 for the sample extraction, on a file of two lines of two
numerals with an empty line between them. -/
theorem read_data_transposes_witness :
    ((∀ ws item unread, (∀ c ∈ ws, isspace c = true) → sample_numeral item →
        (unread = [] ∨ ∃ c r, unread = c :: r ∧ isspace c = true) →
        sample_extract (ws ++ item ++ unread) = some (sample_value item 0, unread))
      ∧ (∀ ws, (∀ c ∈ ws, isspace c = true) → sample_extract ws = none)
      ∧ (fun _ : String => some "1 2\n\n3 4\n") "input.dat" = some "1 2\n\n3 4\n"
      ∧ 1 ≤ (nonempty_lines "1 2\n\n3 4\n").length
      ∧ (∀ line ∈ nonempty_lines "1 2\n\n3 4\n",
          (line_items line).length = 2 ∧ ∀ item ∈ line_items line, sample_numeral item)
      ∧ "1 2\n\n3 4\n".length + 2 ≤ 11) ∧
    ∃ fm, read_data sample_extract (fun _ => some "1 2\n\n3 4\n") 11 "input.dat" =
        some (.ok fm) ∧
      fm.rows = 2 ∧ fm.cols = (nonempty_lines "1 2\n\n3 4\n").length ∧
      ∀ i j line item, (nonempty_lines "1 2\n\n3 4\n")[j]? = some line →
        (line_items line)[i]? = some item → fm.coeff i j = some (sample_value item 0) :=
  ⟨⟨sample_extract_numeral, sample_extract_spaces, rfl, by decide,
      by unfold sample_numeral; decide, by decide⟩,
    read_data_transposes sample_extract sample_numeral (fun item => sample_value item 0)
      (fun _ => some "1 2\n\n3 4\n") "input.dat" "1 2\n\n3 4\n" 2 11
      sample_extract_numeral sample_extract_spaces rfl (by decide)
      (by unfold sample_numeral; decide) (by decide)⟩

/-- Claim C8 fails as stated: the lines `1` and `2 3` hold 1 and 2 values, and
`read_data` returns a matrix of 1 row and 2 columns, the value `3` being
dropped, where the claim has it fail. -/
theorem read_data_accepts_ragged_input :
    nonempty_lines "1\n2 3\n" = ["1".toList, "2 3".toList]
    ∧ (line_items "1".toList).length = 1 ∧ (line_items "2 3".toList).length = 2
    ∧ read_data_row sample_extract 8 "1".toList [] = some [1]
    ∧ read_data_row sample_extract 8 "2 3".toList [] = some [2, 3]
    ∧ ∃ fm, read_data sample_extract (fun _ => some "1\n2 3\n") 8 "input.dat" =
          some (.ok fm) ∧
        fm.rows = 1 ∧ fm.cols = 2 ∧ fm.coeff 0 0 = some 1 ∧ fm.coeff 0 1 = some 2 :=
  ⟨by decide, by decide, by decide, rfl, rfl, _, rfl, rfl, rfl, rfl, rfl⟩

/-- Claim C8, amended. `read_data` does not compare the lengths of the rows
and rejects none for its length. When the file holds a text
whose first non-empty line holds `D` white space separated items and whose
other non-empty lines hold at least `D`, all of them numerals, it returns the
matrix with `D` rows and one column for each non-empty line whose coefficient
`(i,j)` is the value of the `i`-th item of the `j`-th non-empty line; what a
line holds after its `D`-th item is not used. -/
theorem read_data_first_values {α : Type} (extract : List Char → Option (α × List Char))
    (numeral : List Char → Prop) (value : List Char → α)
    (files : String → Option String) (filename contents : String) (D fuel : Nat)
    (hnum : ∀ ws item unread, (∀ c ∈ ws, isspace c = true) → numeral item →
      (unread = [] ∨ ∃ c r, unread = c :: r ∧ isspace c = true) →
      extract (ws ++ item ++ unread) = some (value item, unread))
    (hfail : ∀ ws, (∀ c ∈ ws, isspace c = true) → extract ws = none)
    (hfile : files filename = some contents)
    (hfirst : ∃ line, (nonempty_lines contents)[0]? = some line ∧ (line_items line).length = D)
    (hD : ∀ line ∈ nonempty_lines contents,
      D ≤ (line_items line).length ∧ ∀ item ∈ line_items line, numeral item)
    (hfuel : contents.length + 2 ≤ fuel) :
    ∃ fm, read_data extract files fuel filename = some (.ok fm) ∧
      fm.rows = D ∧ fm.cols = (nonempty_lines contents).length ∧
      ∀ i j line item, i < D → (nonempty_lines contents)[j]? = some line →
        (line_items line)[i]? = some item → fm.coeff i j = some (value item) :=
  read_data_spec extract numeral value files filename contents D fuel hnum hfail hfile
    hfirst hD hfuel

/-- Claim C8, amended, for the sample extraction on the lines `1 2` and
`3 4 5`. -/
theorem read_data_first_values_witness :
    ((∀ ws item unread, (∀ c ∈ ws, isspace c = true) → sample_numeral item →
        (unread = [] ∨ ∃ c r, unread = c :: r ∧ isspace c = true) →
        sample_extract (ws ++ item ++ unread) = some (sample_value item 0, unread))
      ∧ (∀ ws, (∀ c ∈ ws, isspace c = true) → sample_extract ws = none)
      ∧ (fun _ : String => some "1 2\n3 4 5\n") "input.dat" = some "1 2\n3 4 5\n"
      ∧ (∃ line, (nonempty_lines "1 2\n3 4 5\n")[0]? = some line ∧
          (line_items line).length = 2)
      ∧ (∀ line ∈ nonempty_lines "1 2\n3 4 5\n",
          2 ≤ (line_items line).length ∧ ∀ item ∈ line_items line, sample_numeral item)
      ∧ "1 2\n3 4 5\n".length + 2 ≤ 12) ∧
    ∃ fm, read_data sample_extract (fun _ => some "1 2\n3 4 5\n") 12 "input.dat" =
        some (.ok fm) ∧
      fm.rows = 2 ∧ fm.cols = (nonempty_lines "1 2\n3 4 5\n").length ∧
      ∀ i j line item, i < 2 → (nonempty_lines "1 2\n3 4 5\n")[j]? = some line →
        (line_items line)[i]? = some item → fm.coeff i j = some (sample_value item 0) :=
  ⟨⟨sample_extract_numeral, sample_extract_spaces, rfl, ⟨_, rfl, by decide⟩,
      by unfold sample_numeral; decide, by decide⟩,
    read_data_first_values sample_extract sample_numeral (fun item => sample_value item 0)
      (fun _ => some "1 2\n3 4 5\n") "input.dat" "1 2\n3 4 5\n" 2 12
      sample_extract_numeral sample_extract_spaces rfl ⟨_, rfl, by decide⟩
      (by unfold sample_numeral; decide) (by decide)⟩

/-- Two runs of `read_data` that leave the defined behaviour: on the lines
`1 2` and `3` the read of `input_data[1][1]` is past the end of the second
row, and on a file without a non-empty line the read of `input_data[0]` is
past the end of `input_data`. -/
theorem read_data_short_row :
    read_data sample_extract (fun _ => some "1 2\n3\n") 8 "input.dat" =
        some (.error .out_of_range)
    ∧ read_data_row sample_extract 8 "1 2".toList [] = some [1, 2]
    ∧ read_data_row sample_extract 8 "3".toList [] = some [3]
    ∧ read_data sample_extract (fun _ => some "\n\n") 8 "input.dat" =
        some (.error .out_of_range) :=
  ⟨rfl, rfl, rfl, rfl⟩

/-- Claim C9 fails as stated: `atoi` gives 0 on the text `0` and on text that
is not a number, and on the arguments `pca brute dense 0 2` and a data file of
two lines of two numerals `embed` is called with `NUMBER_OF_NEIGHBORS` equal
to 0, outside its domain. -/
theorem main_zero_neighbors :
    atoi "0" = 0 ∧ atoi "abc" = 0 ∧
    ∃ out, main (sample_env (some "1 2\n3 4\n") false) 12
        ["tapkee", "pca", "brute", "dense", "0", "2"] = some out ∧
      ∃ c ∈ out.embed_calls,
        c.parameters .NUMBER_OF_NEIGHBORS = some (.unsigned_int 0) ∧ ¬ in_domain c.parameters := by
  refine ⟨by decide, by decide, _, rfl, _, List.Mem.head _, rfl, ?_⟩
  rintro ⟨⟨n, hn, hn1⟩, _⟩
  have h0 : (some (ParamValue.unsigned_int 0)) = some (ParamValue.unsigned_int n) := hn
  simp only [Option.some.injEq, ParamValue.unsigned_int.injEq] at h0
  omega

/-- Claim C9, amended. On every run of `main` with exactly 5 arguments and
three recognised tokens, every call of `embed` receives a map in which
`GAUSSIAN_KERNEL_WIDTH` is 1000, `LANDMARK_RATIO` is 0.2 and `SPE_TOLERANCE`
is 0.00001 (each within its domain), and `NUMBER_OF_NEIGHBORS` and
`TARGET_DIMENSION` are `atoi` of the fourth and of the fifth argument,
converted to `unsigned int`; the map is within the domains exactly when
these two numbers are not 0. -/
theorem main_parameters_handed_to_embed {α : Type} (env : Env α) (fuel : Nat) (argv : List String) (out : Outcome α)
    (hlen : argv.length = 6) (h1 : argv.getD 1 "" ∈ reduction_tokens)
    (h2 : argv.getD 2 "" ∈ neighbors_tokens) (h3 : argv.getD 3 "" ∈ eigen_tokens)
    (hmain : main env fuel argv = some out) :
    ∀ c ∈ out.embed_calls,
      c.parameters .NUMBER_OF_NEIGHBORS =
        some (.unsigned_int (static_cast_unsigned_int (atoi (argv.getD 4 "")))) ∧
      c.parameters .TARGET_DIMENSION =
        some (.unsigned_int (static_cast_unsigned_int (atoi (argv.getD 5 "")))) ∧
      c.parameters .GAUSSIAN_KERNEL_WIDTH = some (.scalar 1000) ∧
      c.parameters TAPKEE_PARAMETERS.LANDMARK_RATIO = some (.scalar (2 / 10)) ∧
      c.parameters .SPE_TOLERANCE = some (.scalar (1 / 100000)) ∧
      (in_domain c.parameters ↔
        1 ≤ static_cast_unsigned_int (atoi (argv.getD 4 "")) ∧
        1 ≤ static_cast_unsigned_int (atoi (argv.getD 5 ""))) := by
  intro c hc
  obtain ⟨m, n, e, hcfg⟩ := main_configured env fuel argv hlen h1 h2 h3
  rw [hcfg] at hmain
  obtain ⟨input_data, _, hceq⟩ := main_run_embed_calls env fuel _ _ out hmain rfl c hc
  obtain ⟨p1, p2, p3, p4, p5, _⟩ := main_parameters_values m n e (argv.getD 4 "")
    (argv.getD 5 "") (.unsigned_int (static_cast_unsigned_int input_data.rows))
  have hp : c.parameters = (main_parameters m n e (argv.getD 4 "") (argv.getD 5 "")).set
      .CURRENT_DIMENSION (.unsigned_int (static_cast_unsigned_int input_data.rows)) := by
    rw [hceq]; rfl
  rw [hp]
  refine ⟨p1, p2, p3, p4, p5, ?_⟩
  unfold in_domain
  rw [p1, p2, p3, p4, p5]
  constructor
  · rintro ⟨⟨a, ha, ha1⟩, ⟨b, hb, hb1⟩, _⟩
    simp only [Option.some.injEq, ParamValue.unsigned_int.injEq] at ha hb
    rw [ha, hb]
    exact ⟨ha1, hb1⟩
  · rintro ⟨ha, hb⟩
    refine ⟨⟨_, rfl, ha⟩, ⟨_, rfl, hb⟩, ⟨_, rfl, by norm_num⟩, ⟨_, rfl, by norm_num, by norm_num⟩,
      ⟨_, rfl, by norm_num⟩⟩

/-- Claim C9, amended, on the arguments `pca brute dense 0 2`. -/
theorem main_parameters_handed_to_embed_witness :
    (["tapkee", "pca", "brute", "dense", "0", "2"].length = 6
      ∧ ["tapkee", "pca", "brute", "dense", "0", "2"].getD 1 "" ∈ reduction_tokens
      ∧ ["tapkee", "pca", "brute", "dense", "0", "2"].getD 2 "" ∈ neighbors_tokens
      ∧ ["tapkee", "pca", "brute", "dense", "0", "2"].getD 3 "" ∈ eigen_tokens) ∧
    ∃ out, main (sample_env (some "1 2\n3 4\n") false) 12
        ["tapkee", "pca", "brute", "dense", "0", "2"] = some out ∧
      out.embed_calls.length = 1 ∧
      ∀ c ∈ out.embed_calls,
        c.parameters .NUMBER_OF_NEIGHBORS = some (.unsigned_int
          (static_cast_unsigned_int
            (atoi (["tapkee", "pca", "brute", "dense", "0", "2"].getD 4 "")))) ∧
        c.parameters .TARGET_DIMENSION = some (.unsigned_int
          (static_cast_unsigned_int
            (atoi (["tapkee", "pca", "brute", "dense", "0", "2"].getD 5 "")))) ∧
        c.parameters .GAUSSIAN_KERNEL_WIDTH = some (.scalar 1000) ∧
        c.parameters TAPKEE_PARAMETERS.LANDMARK_RATIO = some (.scalar (2 / 10)) ∧
        c.parameters .SPE_TOLERANCE = some (.scalar (1 / 100000)) ∧
        (in_domain c.parameters ↔
          1 ≤ static_cast_unsigned_int
            (atoi (["tapkee", "pca", "brute", "dense", "0", "2"].getD 4 "")) ∧
          1 ≤ static_cast_unsigned_int
            (atoi (["tapkee", "pca", "brute", "dense", "0", "2"].getD 5 ""))) :=
  ⟨⟨rfl, by decide, by decide, by decide⟩, _, rfl, rfl,
    main_parameters_handed_to_embed (sample_env (some "1 2\n3 4\n") false) 12
      ["tapkee", "pca", "brute", "dense", "0", "2"] _ rfl (by decide) (by decide) (by decide)
      rfl⟩

/-- Claim C10. On a run of `main` with 5 arguments and recognised tokens in
which `read_data` returns the matrix `input_data`, `embed` is called once,
with the index sequence `0, 1, ..., N-1` for `N` the number of columns, and
with `CURRENT_DIMENSION` set to the number of rows converted to
`unsigned int` (the number of rows itself when below `2 ^ 32`). With
`USE_PRECOMPUTED` the callbacks handed over wrap the matrices
`matrix_from_callback` builds on the same index sequence, and the coefficient
`(i,j)` of each of these is the value of the direct callback at `(i,j)`. -/
theorem main_indices_and_dimension {α : Type} (env : Env α) (fuel : Nat) (argv : List String)
    (input_data : DenseMatrix α)
    (hlen : argv.length = 6) (h1 : argv.getD 1 "" ∈ reduction_tokens)
    (h2 : argv.getD 2 "" ∈ neighbors_tokens) (h3 : argv.getD 3 "" ∈ eigen_tokens)
    (hread : read_data env.extract env.files fuel "input.dat" = some (.ok input_data)) :
    ∃ out c, main env fuel argv = some out ∧ out.embed_calls = [c] ∧
      c.indices = List.range input_data.cols ∧
      c.parameters .CURRENT_DIMENSION =
        some (.unsigned_int (input_data.rows % 4294967296)) ∧
      (input_data.rows < 4294967296 →
        c.parameters .CURRENT_DIMENSION = some (.unsigned_int input_data.rows)) ∧
      (env.USE_PRECOMPUTED = true →
        c.dcb = env.precomputed_distance_callback
            (matrix_from_callback (List.range input_data.cols)
              (env.distance_callback input_data)).result ∧
        c.kcb = env.precomputed_kernel_callback
            (matrix_from_callback (List.range input_data.cols)
              (env.kernel_callback input_data)).result) ∧
      (env.USE_PRECOMPUTED = false →
        c.dcb = env.distance_callback input_data ∧ c.kcb = env.kernel_callback input_data) ∧
      (∀ i j, i < input_data.cols → j < input_data.cols →
        (matrix_from_callback (List.range input_data.cols)
            (env.distance_callback input_data)).result.coeff i j =
          some (env.distance_callback input_data i j) ∧
        (matrix_from_callback (List.range input_data.cols)
            (env.kernel_callback input_data)).result.coeff i j =
          some (env.kernel_callback input_data i j)) := by
  obtain ⟨m, n, e, hcfg⟩ := main_configured env fuel argv hlen h1 h2 h3
  obtain ⟨out, hout, hcalls⟩ := main_run_loaded env fuel
    [.parse_reduction_method (argv.getD 1 ""), .parse_neighbors_method (argv.getD 2 ""),
     .parse_eigen_method (argv.getD 3 "")]
    (main_parameters m n e (argv.getD 4 "") (argv.getD 5 "")) input_data hread rfl
  refine ⟨out, _, hcfg.trans hout, hcalls, ?_, ?_, ?_, ?_, ?_, ?_⟩
  · exact main_data_indices_eq input_data
  · show some (ParamValue.unsigned_int (static_cast_unsigned_int (input_data.rows : Int))) = _
    rw [static_cast_unsigned_int_natCast]
  · intro hD
    show some (ParamValue.unsigned_int (static_cast_unsigned_int (input_data.rows : Int))) = _
    rw [static_cast_unsigned_int_natCast, Nat.mod_eq_of_lt hD]
  · intro hp
    simp [main_embed_call, main_dcb, main_kcb, hp, main_distance_matrix,
      main_kernel_matrix, main_data_indices_eq]
  · intro hp
    simp [main_embed_call, main_dcb, main_kcb, hp]
  · intro i j hi hj
    rw [matrix_from_callback_entry _ _ i j (by simpa using hi) (by simpa using hj),
      matrix_from_callback_entry _ _ i j (by simpa using hi) (by simpa using hj)]
    simp

/-- Claim C10 on the arguments `mds covertree arpack 3 1`, with
`USE_PRECOMPUTED`, and a data file of two lines of two numerals. -/
theorem main_indices_and_dimension_witness :
    (["tapkee", "mds", "covertree", "arpack", "3", "1"].length = 6
      ∧ ["tapkee", "mds", "covertree", "arpack", "3", "1"].getD 1 "" ∈ reduction_tokens
      ∧ ["tapkee", "mds", "covertree", "arpack", "3", "1"].getD 2 "" ∈ neighbors_tokens
      ∧ ["tapkee", "mds", "covertree", "arpack", "3", "1"].getD 3 "" ∈ eigen_tokens) ∧
    ∃ input_data : DenseMatrix Nat,
      read_data (sample_env (some "1 2\n3 4\n") true).extract
        (sample_env (some "1 2\n3 4\n") true).files 12 "input.dat" = some (.ok input_data) ∧
      input_data.rows = 2 ∧ input_data.cols = 2 ∧
      ∃ out c, main (sample_env (some "1 2\n3 4\n") true) 12
          ["tapkee", "mds", "covertree", "arpack", "3", "1"] = some out ∧
        out.embed_calls = [c] ∧
        c.indices = List.range input_data.cols ∧
        c.parameters .CURRENT_DIMENSION =
          some (.unsigned_int (input_data.rows % 4294967296)) ∧
        (input_data.rows < 4294967296 →
          c.parameters .CURRENT_DIMENSION = some (.unsigned_int input_data.rows)) ∧
        ((sample_env (some "1 2\n3 4\n") true).USE_PRECOMPUTED = true →
          c.dcb = (sample_env (some "1 2\n3 4\n") true).precomputed_distance_callback
              (matrix_from_callback (List.range input_data.cols)
                ((sample_env (some "1 2\n3 4\n") true).distance_callback input_data)).result ∧
          c.kcb = (sample_env (some "1 2\n3 4\n") true).precomputed_kernel_callback
              (matrix_from_callback (List.range input_data.cols)
                ((sample_env (some "1 2\n3 4\n") true).kernel_callback input_data)).result) ∧
        ((sample_env (some "1 2\n3 4\n") true).USE_PRECOMPUTED = false →
          c.dcb = (sample_env (some "1 2\n3 4\n") true).distance_callback input_data ∧
          c.kcb = (sample_env (some "1 2\n3 4\n") true).kernel_callback input_data) ∧
        (∀ i j, i < input_data.cols → j < input_data.cols →
          (matrix_from_callback (List.range input_data.cols)
              ((sample_env (some "1 2\n3 4\n") true).distance_callback input_data)).result.coeff
              i j =
            some ((sample_env (some "1 2\n3 4\n") true).distance_callback input_data i j) ∧
          (matrix_from_callback (List.range input_data.cols)
              ((sample_env (some "1 2\n3 4\n") true).kernel_callback input_data)).result.coeff
              i j =
            some ((sample_env (some "1 2\n3 4\n") true).kernel_callback input_data i j)) :=
  ⟨⟨rfl, by decide, by decide, by decide⟩, _, rfl, rfl, rfl,
    main_indices_and_dimension (sample_env (some "1 2\n3 4\n") true) 12
      ["tapkee", "mds", "covertree", "arpack", "3", "1"] _ rfl (by decide) (by decide)
      (by decide) rfl⟩

end Tapkee
